import Mathlib

/-!
Shallow embedding of the ClickDance session engine (source file
src/unnamed/part_000, the `App` component).  The reactive `useState`
variables become fields of an explicit `GameState`; each event handler of
the source becomes a pure state-transformer; the two `useEffect` blocks
(intense-mode recomputation and empty-board refill) are applied after every
event by `step`, mirroring the sequential, run-to-completion event model of
the browser.  Environment effects are oracle inputs threaded through the
events: `Date.now()` and the `Math.random()` draws arrive in a `GenEnv`,
and the floating `Math.sqrt` used only for the cursor-distance statistic is
passed as the precomputed `moveDist` argument of the mouse-move event.
Optional fields of the source `Target` interface are modelled by the
defaulted value their reads use in the source (`t.clickCount || 0`,
`t.progress || 0`, falsy `isHit`), except `pathPoints`, which keeps the
`Option` because the source tests its presence (`!target?.pathPoints`).
-/

namespace ClickDance

/-- Waypoint of a path-following target (source `interface PathPoint`). -/
structure PathPoint where
  x : ℚ
  y : ℚ
deriving DecidableEq

/-- Live target (source `interface Target`). -/
structure Target where
  id : ℚ
  x : ℚ
  y : ℚ
  createdAt : ℚ
  isHit : Bool := false
  requiresDoubleClick : Bool := false
  clickCount : Nat := 0
  isPathTarget : Bool := false
  pathPoints : Option (List PathPoint) := none
  progress : ℚ := 0
  isDragging : Bool := false
deriving DecidableEq

/-- Running statistics (source `interface GameStats`). -/
structure GameStats where
  totalClicks : Nat
  accurateClicks : Nat
  averageReactionTime : ℚ
  missedTargets : Nat
  totalDistance : ℚ
  lastMousePosition : ℚ × ℚ
deriving DecidableEq

/-- Persisted summary of one finished session (source `interface GameRecord`).
The source stores `id` and `date` as strings derived from the clock; the
model keeps the underlying timestamp. -/
structure GameRecord where
  id : ℚ
  date : ℚ
  score : Nat
  accuracy : ℚ
  averageReactionTime : ℚ
  totalDistance : ℚ
  clicksPerSecond : ℚ
  sessionDuration : Nat
  totalClicks : Nat
  accurateClicks : Nat
deriving DecidableEq

/-- The flat reactive state of the `App` component. `totalReactionTime`
models `totalReactionTimeRef`, `timerActive` models whether the interval of
`startGame` is scheduled, `pendingRemovals` models the not-yet-fired
`setTimeout` removals scheduled by `handleTargetClick`, and `records`
models the `gameRecords` key of `localStorage`. -/
structure GameState where
  isGameStarted : Bool
  targets : List Target
  score : Nat
  sessionDuration : Nat
  timeLeft : Nat
  gameStats : GameStats
  showSummary : Bool
  totalReactionTime : ℚ
  isIntenseMode : Bool
  dragTarget : Option Target
  lastMousePos : ℚ × ℚ
  mouseSensitivity : ℚ
  timerActive : Bool
  pendingRemovals : List ℚ
  records : List GameRecord
deriving DecidableEq

/-- Oracle inputs consumed by one `generateTarget` call: the clock value
`Date.now()`, the measured canvas rectangle, the computed target size, the
fan-out draw compared against 0.5, and per-target position and
double-click draws (each a `Math.random()` value). -/
structure GenEnv where
  now : ℚ
  canvasW : ℚ
  canvasH : ℚ
  targetSize : ℚ
  fanoutDraw : ℚ
  posDraws : Nat → ℚ × ℚ
  dcDraws : Nat → ℚ

def initialStats : GameStats :=
  { totalClicks := 0
    accurateClicks := 0
    averageReactionTime := 0
    missedTargets := 0
    totalDistance := 0
    lastMousePosition := (0, 0) }

/-- Initial values of the `useState` hooks of `App`; `localStorage` is
modelled as starting empty. -/
def initialState : GameState :=
  { isGameStarted := false
    targets := []
    score := 0
    sessionDuration := 15
    timeLeft := 15
    gameStats := initialStats
    showSummary := false
    totalReactionTime := 0
    isIntenseMode := false
    dragTarget := none
    lastMousePos := (0, 0)
    mouseSensitivity := 1
    timerActive := false
    pendingRemovals := []
    records := [] }

/-- The i-th target built inside the generation loop of `generateTarget`:
id `Date.now() + i`, position uniform in the inset canvas, a 20% chance of
being double-click, click count 0. -/
def mkTarget (env : GenEnv) (i : Nat) : Target :=
  { id := env.now + i
    x := (env.posDraws i).1 * (env.canvasW - 2 * env.targetSize) + env.targetSize
    y := (env.posDraws i).2 * (env.canvasH - 2 * env.targetSize) + env.targetSize
    createdAt := env.now
    isHit := false
    requiresDoubleClick := decide (env.dcDraws i < 1 / 5)
    clickCount := 0
    isPathTarget := false
    pathPoints := none
    progress := 0
    isDragging := false }

/-- Number of targets one call produces:
`isIntenseMode && Math.random() > 0.5 ? 2 : 1`. -/
def genCount (env : GenEnv) (s : GameState) : Nat :=
  if s.isIntenseMode ∧ 1 / 2 < env.fanoutDraw then 2 else 1

/-- The `newTargets` array of one `generateTarget` call. -/
def genList (env : GenEnv) (s : GameState) : List Target :=
  (List.range (genCount env s)).map (mkTarget env)

/-- Source `generateTarget`: bail out at 3 live targets, otherwise append
the new targets and keep only the first three
(`[...prev, ...newTargets].slice(0, 3)`). The canvas is measurable whenever
an event can fire (the play area is mounted while the session runs), so the
`!canvasRef.current` early return is not modelled. -/
def generateTarget (env : GenEnv) (s : GameState) : GameState :=
  if 3 ≤ s.targets.length then s
  else { s with targets := (s.targets ++ genList env s).take 3 }

def findTarget (tid : ℚ) (ts : List Target) : Option Target :=
  ts.find? fun t => decide (t.id = tid)

/-- Stats mutation of a resolving click (source lines around
`totalReactionTimeRef.current += reactionTime`): the reaction sum is bumped
first, then the average divides the new sum by `prev.accurateClicks + 1`. -/
def recordHitStats (r : ℚ) (s : GameState) : GameState :=
  { s with
    totalReactionTime := s.totalReactionTime + r
    gameStats := { s.gameStats with
      accurateClicks := s.gameStats.accurateClicks + 1
      averageReactionTime := (s.totalReactionTime + r) / (s.gameStats.accurateClicks + 1) } }

/-- Source `handleTargetClick`: unknown id is ignored; the first click on a
double-click target only bumps its counter; otherwise the click resolves,
updating stats, marking the target hit, scheduling its delayed removal and
asking for a replacement target. -/
def handleTargetClick (now : ℚ) (env : GenEnv) (tid : ℚ) (s : GameState) : GameState :=
  match findTarget tid s.targets with
  | none => s
  | some target =>
    if target.requiresDoubleClick ∧ target.clickCount + 1 < 2 then
      { s with targets := s.targets.map fun t =>
          if t.id = tid then { t with clickCount := target.clickCount + 1 } else t }
    else
      let s1 := recordHitStats (now - target.createdAt) s
      let s2 := { s1 with
        targets := s1.targets.map fun t => if t.id = tid then { t with isHit := true } else t
        pendingRemovals := s1.pendingRemovals ++ [tid] }
      generateTarget env s2

/-- The `setTimeout` body scheduled by `handleTargetClick`: filter the
target out and increment the score.  Guarded by the pending queue, which
models that only a scheduled timeout can fire, once. -/
def settleRemoval (tid : ℚ) (s : GameState) : GameState :=
  if tid ∈ s.pendingRemovals then
    { s with
      targets := s.targets.filter fun t => decide (t.id ≠ tid)
      score := s.score + 1
      pendingRemovals := s.pendingRemovals.erase tid }
  else s

/-- Source `handleCanvasClick`: with no live target the click is swallowed,
otherwise every play-area click counts one total click. -/
def handleCanvasClick (s : GameState) : GameState :=
  if s.targets.length = 0 then s
  else { s with gameStats :=
    { s.gameStats with totalClicks := s.gameStats.totalClicks + 1 } }

/-- Source `handleTargetMouseDown`: only a path target can be grabbed; the
grabbed target is snapshotted into `dragTarget` and flagged dragging. -/
def handleTargetMouseDown (tid cx cy : ℚ) (s : GameState) : GameState :=
  match findTarget tid s.targets with
  | none => s
  | some target =>
    if target.isPathTarget then
      { s with
        dragTarget := some target
        lastMousePos := (cx, cy)
        targets := s.targets.map fun t =>
          if t.id = tid then { t with isDragging := true } else t }
    else s

def clampProgress (q : ℚ) : ℚ := max 0 (min 1 q)

/-- The `pathLength` local of `handleMouseMove`: horizontal extent of the
waypoint sequence,
`pathPoints[pathPoints.length - 1].x - pathPoints[0].x`. -/
def pathExtent (pts : List PathPoint) : ℚ :=
  (pts.getLastD ⟨0, 0⟩).x - (pts.headD ⟨0, 0⟩).x

/-- The `newProgress` local of `handleMouseMove`: previous progress plus
the horizontal displacement divided by the path extent, clamped to [0,1]
(`Math.max(0, Math.min(1, ...))`). -/
def moveProgress (cx lastX : ℚ) (target : Target) (pts : List PathPoint) : ℚ :=
  clampProgress (target.progress + (cx - lastX) / pathExtent pts)

/-- The `pointIndex` local of `handleMouseMove`:
`Math.floor(newProgress * (pathPoints.length - 1))`. -/
def pathIndex (p : ℚ) (pts : List PathPoint) : Nat :=
  (p * ((pts.length : ℚ) - 1)).floor.toNat

/-- The waypoint the target is moved to at progress `p`. -/
def pathPointAt (p : ℚ) (pts : List PathPoint) : PathPoint :=
  pts.getD (pathIndex p pts) ⟨0, 0⟩

/-- Source `handleMouseMove`.  `cx, cy` are `e.clientX, e.clientY`;
`moveDist` is the oracle value of
`Math.sqrt((e.movementX*sens)^2 + (e.movementY*sens)^2)`, which only feeds
the cumulative-distance statistic.  While a path target is dragged, the
horizontal displacement since the reference point is converted into a
progress delta by dividing by the horizontal extent of the path, the
result is clamped to [0,1], and progress 1 resolves the target. -/
def handleMouseMove (cx cy moveDist : ℚ) (env : GenEnv) (s : GameState) : GameState :=
  if s.isGameStarted = false then s else
  let s0 := { s with gameStats :=
    { s.gameStats with totalDistance := s.gameStats.totalDistance + moveDist } }
  match s0.dragTarget with
  | none => s0
  | some dt =>
    if dt.isPathTarget = false then s0 else
    match findTarget dt.id s0.targets with
    | none => s0
    | some target =>
      match target.pathPoints with
      | none => s0
      | some pts =>
        if target.isDragging = false then s0 else
        let newProgress := moveProgress cx s0.lastMousePos.1 target pts
        if 1 ≤ newProgress then
          let s1 := { s0 with
            targets := s0.targets.filter fun t => decide (t.id ≠ target.id)
            score := s0.score + 1
            dragTarget := none
            lastMousePos := (cx, cy) }
          generateTarget env s1
        else
          let point := pathPointAt newProgress pts
          { s0 with
            targets := s0.targets.map fun t =>
              if t.id = target.id then
                { t with progress := newProgress, x := point.x, y := point.y }
              else t
            lastMousePos := (cx, cy) }

/-- Source `handleMouseUp`: releasing a drag clears `dragTarget` and the
dragging flag of the grabbed target, and nothing else. -/
def handleMouseUp (s : GameState) : GameState :=
  match s.dragTarget with
  | none => s
  | some dt =>
    { s with
      dragTarget := none
      targets := s.targets.map fun t =>
        if t.id = dt.id then { t with isDragging := false } else t }

/-- The record built by `saveGameRecord`. -/
def mkGameRecord (now : ℚ) (s : GameState) : GameRecord :=
  { id := now
    date := now
    score := s.score
    accuracy :=
      if 0 < s.gameStats.totalClicks then
        ((s.gameStats.accurateClicks : ℚ) / s.gameStats.totalClicks) * 100
      else 0
    averageReactionTime := s.gameStats.averageReactionTime
    totalDistance := s.gameStats.totalDistance
    clicksPerSecond := (s.gameStats.accurateClicks : ℚ) / s.sessionDuration
    sessionDuration := s.sessionDuration
    totalClicks := s.gameStats.totalClicks
    accurateClicks := s.gameStats.accurateClicks }

/-- The descending-by-score stable sort the source applies on every write
(`updatedRecords.sort((a, b) => b.score - a.score)`). -/
def sortRecords (rs : List GameRecord) : List GameRecord :=
  rs.mergeSort fun a b => decide (b.score ≤ a.score)

/-- Source `saveGameRecord`: append the snapshot and re-sort the store. -/
def saveGameRecord (now : ℚ) (s : GameState) : GameState :=
  { s with records := sortRecords (s.records ++ [mkGameRecord now s]) }

/-- Source `endGame`: cancel the interval, leave the running state, clear
the board, persist the record, show the summary.  There is no guard
against being called again. -/
def endGame (now : ℚ) (s : GameState) : GameState :=
  let s1 := { s with timerActive := false, isGameStarted := false, targets := [] }
  { saveGameRecord now s1 with showSummary := true }

/-- Source `stopGame`: `endGame` followed by hiding the summary. -/
def stopGame (now : ℚ) (s : GameState) : GameState :=
  { endGame now s with showSummary := false }

/-- Source `startGame`: reset score, clock and stats, spawn the first
target, arm the interval. -/
def startGame (env : GenEnv) (s : GameState) : GameState :=
  let s1 := { s with
    isGameStarted := true
    score := 0
    timeLeft := s.sessionDuration
    showSummary := false
    gameStats := initialStats
    totalReactionTime := 0 }
  let s2 := generateTarget env s1
  { s2 with timerActive := true }

/-- The interval body of `startGame`: at `timeLeft <= 1` it ends the game
and pins the clock at 0, otherwise it decrements. -/
def tick (now : ℚ) (s : GameState) : GameState :=
  if s.timerActive = false then s
  else if s.timeLeft ≤ 1 then { endGame now s with timeLeft := 0 }
  else { s with timeLeft := s.timeLeft - 1 }

/-- The intense-mode recomputation of the source, verbatim:
`const intenseModeThreshold = sessionDuration * 0.75;`
`setIsIntenseMode(timeLeft <= intenseModeThreshold)`. -/
def isIntenseModeUpdate (sessionDuration timeLeft : Nat) : Bool :=
  decide ((timeLeft : ℚ) ≤ (sessionDuration : ℚ) * (3 / 4))

/-- The first `useEffect`: while a session runs, recompute the intense
flag from the clock. -/
def intenseEffect (s : GameState) : GameState :=
  if s.isGameStarted then
    { s with isIntenseMode := isIntenseModeUpdate s.sessionDuration s.timeLeft }
  else s

/-- The second `useEffect`: while a session runs with an empty board,
trigger generation. -/
def refillEffect (env : GenEnv) (s : GameState) : GameState :=
  if s.isGameStarted ∧ s.targets.length = 0 then generateTarget env s else s

/-- Duration choices of the settings panel. -/
def durationOptions : List Nat := [15, 30, 60, 120, 300, 600]

/-- Changing the session-duration select, only reachable outside a run. -/
def setDuration (d : Nat) (s : GameState) : GameState :=
  if s.isGameStarted = false ∧ d ∈ durationOptions then
    { s with sessionDuration := d, timeLeft := s.timeLeft }
  else s

/-- Sensitivity choices of the settings panel. -/
def sensitivityOptions : List ℚ := [1 / 2, 3 / 4, 1, 5 / 4, 3 / 2]

def setSensitivity (m : ℚ) (s : GameState) : GameState :=
  if s.isGameStarted = false ∧ m ∈ sensitivityOptions then
    { s with mouseSensitivity := m }
  else s

/-- One browser-level event.  A click landing on a (non-path) target runs
the target handler and then bubbles to the canvas handler; a click on
empty play area runs only the canvas handler. -/
inductive Event where
  | start (env : GenEnv)
  | clickTarget (tid now : ℚ) (env : GenEnv)
  | clickMiss
  | mouseDown (tid cx cy : ℚ)
  | mouseMove (cx cy moveDist : ℚ) (env : GenEnv)
  | mouseUp
  | timerTick (now : ℚ)
  | settle (tid : ℚ)
  | stop (now : ℚ)
  | setDur (d : Nat)
  | setSens (m : ℚ)

def handleEvent : Event → GameState → GameState
  | .start env, s => startGame env s
  | .clickTarget tid now env, s => handleCanvasClick (handleTargetClick now env tid s)
  | .clickMiss, s => handleCanvasClick s
  | .mouseDown tid cx cy, s => handleTargetMouseDown tid cx cy s
  | .mouseMove cx cy d env, s => handleMouseMove cx cy d env s
  | .mouseUp, s => handleMouseUp s
  | .timerTick now, s => tick now s
  | .settle tid, s => settleRemoval tid s
  | .stop now, s => stopGame now s
  | .setDur d, s => setDuration d s
  | .setSens m, s => setSensitivity m s

/-- One settled event: the handler runs to completion, then the effects
fire in their declaration order. -/
def step (e : Event) (renv : GenEnv) (s : GameState) : GameState :=
  refillEffect renv (intenseEffect (handleEvent e s))

/-- States the engine can actually be in. -/
inductive Reachable : GameState → Prop
  | init : Reachable initialState
  | next {s : GameState} (e : Event) (renv : GenEnv) :
      Reachable s → Reachable (step e renv s)

/-- Folding the stats mutation of a resolving click over a list of reaction
times, used to express the running average after a sequence of hits. -/
def runHits (rs : List ℚ) (s : GameState) : GameState :=
  rs.foldl (fun st r => recordHitStats r st) s

/-- Per-target shape invariant: the stored click count of a double-click
target never passes 1 (the second click resolves instead of storing 2) and
the path progress stays clamped in the unit interval. -/
def TargetOK (t : Target) : Prop :=
  t.clickCount ≤ 1 ∧ 0 ≤ t.progress ∧ t.progress ≤ 1

/- Concrete sample data used to instantiate the theorems below. -/

def sampleEnv : GenEnv :=
  { now := 1000
    canvasW := 400
    canvasH := 300
    targetSize := 50
    fanoutDraw := 0
    posDraws := fun _ => (1 / 2, 1 / 2)
    dcDraws := fun _ => 1 / 2 }

/-- Generation oracle with clock pinned at 0, producing id collisions when
reused across calls. -/
def collideEnv : GenEnv :=
  { now := 0
    canvasW := 400
    canvasH := 300
    targetSize := 50
    fanoutDraw := 0
    posDraws := fun _ => (1 / 2, 1 / 2)
    dcDraws := fun _ => 1 }

def startedEmpty : GameState := { initialState with isGameStarted := true }

def tinyTarget (n : ℚ) : Target :=
  { id := n, x := 0, y := 0, createdAt := 0 }

def threeTargets : GameState :=
  { initialState with targets := [tinyTarget 1, tinyTarget 2, tinyTarget 3] }

def dblTarget : Target :=
  { id := 7, x := 0, y := 0, createdAt := 0, requiresDoubleClick := true }

def dblState : GameState :=
  { initialState with isGameStarted := true, timerActive := true, targets := [dblTarget] }

def dblTarget1 : Target := { dblTarget with clickCount := 1 }

def dblState1 : GameState :=
  { initialState with isGameStarted := true, timerActive := true, targets := [dblTarget1] }

def pathPts : List PathPoint := [⟨0, 0⟩, ⟨10, 0⟩]

def pathTarget : Target :=
  { id := 9, x := 0, y := 0, createdAt := 0, isPathTarget := true,
    pathPoints := some pathPts, progress := 0, isDragging := true }

def dragState : GameState :=
  { initialState with
    isGameStarted := true
    targets := [pathTarget]
    dragTarget := some pathTarget
    lastMousePos := (0, 0) }

def endingState : GameState :=
  { initialState with timerActive := true, timeLeft := 1 }

/-- Stats snapshot with 2 accurate clicks out of 4. -/
def statState : GameState :=
  { initialState with
    gameStats := { initialStats with totalClicks := 4, accurateClicks := 2 } }

/- Helper lemmas about the generation call. -/

theorem genCount_pos (env : GenEnv) (s : GameState) : 0 < genCount env s := by
  unfold genCount; split <;> omega

theorem genCount_le_two (env : GenEnv) (s : GameState) : genCount env s ≤ 2 := by
  unfold genCount; split <;> omega

theorem genList_length (env : GenEnv) (s : GameState) :
    (genList env s).length = genCount env s := by
  simp [genList]

theorem genList_ne_nil (env : GenEnv) (s : GameState) : genList env s ≠ [] := by
  have h := genCount_pos env s
  intro hne
  have := genList_length env s
  rw [hne] at this
  simp at this
  omega

theorem generateTarget_of_ge (env : GenEnv) {s : GameState}
    (h : 3 ≤ s.targets.length) : generateTarget env s = s := by
  unfold generateTarget; rw [if_pos h]

theorem generateTarget_targets_of_lt (env : GenEnv) {s : GameState}
    (h : s.targets.length < 3) :
    (generateTarget env s).targets = (s.targets ++ genList env s).take 3 := by
  unfold generateTarget
  rw [if_neg (by omega)]

theorem generateTarget_length_le (env : GenEnv) {s : GameState}
    (h : s.targets.length ≤ 3) : (generateTarget env s).targets.length ≤ 3 := by
  unfold generateTarget
  split
  · exact h
  · simp [List.length_take]

theorem generateTarget_ne_nil (env : GenEnv) {s : GameState}
    (h : s.targets ≠ []) : (generateTarget env s).targets ≠ [] := by
  unfold generateTarget
  split
  · exact h
  · rw [← List.length_pos] at h ⊢
    simp [List.length_take]
    left
    omega

theorem generateTarget_of_nil_ne_nil (env : GenEnv) {s : GameState}
    (h : s.targets = []) : (generateTarget env s).targets ≠ [] := by
  unfold generateTarget
  rw [if_neg (by simp [h])]
  rw [← List.length_pos]
  simp [List.length_take, h]
  have h1 := genCount_pos env s
  have h2 := genList_length env s
  omega

theorem generateTarget_isGameStarted (env : GenEnv) (s : GameState) :
    (generateTarget env s).isGameStarted = s.isGameStarted := by
  unfold generateTarget; split <;> rfl

theorem generateTarget_gameStats (env : GenEnv) (s : GameState) :
    (generateTarget env s).gameStats = s.gameStats := by
  unfold generateTarget; split <;> rfl

theorem generateTarget_score (env : GenEnv) (s : GameState) :
    (generateTarget env s).score = s.score := by
  unfold generateTarget; split <;> rfl

theorem generateTarget_records (env : GenEnv) (s : GameState) :
    (generateTarget env s).records = s.records := by
  unfold generateTarget; split <;> rfl

theorem generateTarget_totalReactionTime (env : GenEnv) (s : GameState) :
    (generateTarget env s).totalReactionTime = s.totalReactionTime := by
  unfold generateTarget; split <;> rfl

theorem intenseEffect_targets (s : GameState) :
    (intenseEffect s).targets = s.targets := by
  unfold intenseEffect; split <;> rfl

theorem intenseEffect_isGameStarted (s : GameState) :
    (intenseEffect s).isGameStarted = s.isGameStarted := by
  unfold intenseEffect; split <;> rfl

theorem intenseEffect_gameStats (s : GameState) :
    (intenseEffect s).gameStats = s.gameStats := by
  unfold intenseEffect; split <;> rfl

theorem intenseEffect_score (s : GameState) :
    (intenseEffect s).score = s.score := by
  unfold intenseEffect; split <;> rfl

theorem intenseEffect_records (s : GameState) :
    (intenseEffect s).records = s.records := by
  unfold intenseEffect; split <;> rfl

theorem refillEffect_isGameStarted (env : GenEnv) (s : GameState) :
    (refillEffect env s).isGameStarted = s.isGameStarted := by
  unfold refillEffect
  split
  · exact generateTarget_isGameStarted env s
  · rfl

theorem refillEffect_gameStats (env : GenEnv) (s : GameState) :
    (refillEffect env s).gameStats = s.gameStats := by
  unfold refillEffect
  split
  · exact generateTarget_gameStats env s
  · rfl

theorem refillEffect_score (env : GenEnv) (s : GameState) :
    (refillEffect env s).score = s.score := by
  unfold refillEffect
  split
  · exact generateTarget_score env s
  · rfl

theorem refillEffect_records (env : GenEnv) (s : GameState) :
    (refillEffect env s).records = s.records := by
  unfold refillEffect
  split
  · exact generateTarget_records env s
  · rfl

theorem refillEffect_length_le (env : GenEnv) {s : GameState}
    (h : s.targets.length ≤ 3) : (refillEffect env s).targets.length ≤ 3 := by
  unfold refillEffect
  split
  · exact generateTarget_length_le env h
  · exact h

/-- After the effects of a step, a running board is never empty. -/
theorem step_running_ne_nil (e : Event) (renv : GenEnv) (s : GameState)
    (h : (step e renv s).isGameStarted = true) : (step e renv s).targets ≠ [] := by
  unfold step refillEffect at *
  set s1 := intenseEffect (handleEvent e s) with hs1
  by_cases hc : s1.isGameStarted = true ∧ s1.targets.length = 0
  · rw [if_pos hc] at h ⊢
    exact generateTarget_of_nil_ne_nil renv (List.length_eq_zero.mp hc.2)
  · rw [if_neg hc] at h ⊢
    intro hnil
    exact hc ⟨h, by rw [hnil]; rfl⟩

theorem handleCanvasClick_targets (s : GameState) :
    (handleCanvasClick s).targets = s.targets := by
  unfold handleCanvasClick; split <;> rfl

theorem recordHitStats_targets (r : ℚ) (s : GameState) :
    (recordHitStats r s).targets = s.targets := rfl

theorem handleTargetClick_length_le (now : ℚ) (env : GenEnv) (tid : ℚ)
    {s : GameState} (h : s.targets.length ≤ 3) :
    (handleTargetClick now env tid s).targets.length ≤ 3 := by
  unfold handleTargetClick
  cases hf : findTarget tid s.targets with
  | none => simpa using h
  | some target =>
    simp only
    split
    · simpa using h
    · apply generateTarget_length_le
      simpa [recordHitStats] using h

theorem handleTargetMouseDown_length_le (tid cx cy : ℚ) {s : GameState}
    (h : s.targets.length ≤ 3) :
    (handleTargetMouseDown tid cx cy s).targets.length ≤ 3 := by
  unfold handleTargetMouseDown
  cases hf : findTarget tid s.targets with
  | none => simpa using h
  | some target =>
    simp only
    split
    · simpa using h
    · simpa using h

theorem handleMouseMove_length_le (cx cy d : ℚ) (env : GenEnv) {s : GameState}
    (h : s.targets.length ≤ 3) :
    (handleMouseMove cx cy d env s).targets.length ≤ 3 := by
  unfold handleMouseMove
  split
  · exact h
  · cases s.dragTarget with
    | none => simpa using h
    | some dt =>
      simp only
      split
      · simpa using h
      · cases hf : findTarget dt.id
          (GameState.targets { s with gameStats :=
            { s.gameStats with totalDistance := s.gameStats.totalDistance + d } }) with
        | none => simpa using h
        | some target =>
          simp only
          cases hp : target.pathPoints with
          | none => simpa using h
          | some pts =>
            simp only
            split
            · simpa using h
            · split
              · apply generateTarget_length_le
                calc (List.filter _ _).length ≤ s.targets.length :=
                      List.length_filter_le _ _
                  _ ≤ 3 := h
              · simpa using h

theorem handleMouseUp_length_le {s : GameState} (h : s.targets.length ≤ 3) :
    (handleMouseUp s).targets.length ≤ 3 := by
  unfold handleMouseUp
  cases s.dragTarget with
  | none => simpa using h
  | some dt => simpa using h

theorem endGame_targets (now : ℚ) (s : GameState) :
    (endGame now s).targets = [] := rfl

theorem tick_length_le (now : ℚ) {s : GameState} (h : s.targets.length ≤ 3) :
    (tick now s).targets.length ≤ 3 := by
  unfold tick
  split
  · exact h
  · split
    · simp [endGame_targets]
    · simpa using h

theorem settleRemoval_length_le (tid : ℚ) {s : GameState}
    (h : s.targets.length ≤ 3) :
    (settleRemoval tid s).targets.length ≤ 3 := by
  unfold settleRemoval
  split
  · calc (List.filter _ _).length ≤ s.targets.length := List.length_filter_le _ _
      _ ≤ 3 := h
  · exact h

theorem startGame_length_le (env : GenEnv) {s : GameState}
    (h : s.targets.length ≤ 3) :
    (startGame env s).targets.length ≤ 3 := by
  unfold startGame
  simp only
  exact generateTarget_length_le env (by simpa using h)

theorem handleEvent_length_le (e : Event) {s : GameState}
    (h : s.targets.length ≤ 3) : (handleEvent e s).targets.length ≤ 3 := by
  cases e with
  | start env => exact startGame_length_le env h
  | clickTarget tid now env =>
      rw [handleEvent, handleCanvasClick_targets]
      exact handleTargetClick_length_le now env tid h
  | clickMiss => rw [handleEvent, handleCanvasClick_targets]; exact h
  | mouseDown tid cx cy => exact handleTargetMouseDown_length_le tid cx cy h
  | mouseMove cx cy d env => exact handleMouseMove_length_le cx cy d env h
  | mouseUp => exact handleMouseUp_length_le h
  | timerTick now => exact tick_length_le now h
  | settle tid => exact settleRemoval_length_le tid h
  | stop now =>
      show (stopGame now s).targets.length ≤ 3
      simp [stopGame, endGame, saveGameRecord]
  | setDur d =>
      show (setDuration d s).targets.length ≤ 3
      unfold setDuration; split <;> simpa using h
  | setSens m =>
      show (setSensitivity m s).targets.length ≤ 3
      unfold setSensitivity; split <;> simpa using h

theorem step_length_le (e : Event) (renv : GenEnv) {s : GameState}
    (h : s.targets.length ≤ 3) : (step e renv s).targets.length ≤ 3 := by
  unfold step
  apply refillEffect_length_le
  rw [intenseEffect_targets]
  exact handleEvent_length_le e h

/-- Inductive cap invariant: no reachable state holds more than 3 live
targets. -/
theorem reachable_length_le {s : GameState} (h : Reachable s) :
    s.targets.length ≤ 3 := by
  induction h with
  | init => simp [initialState]
  | next e renv _ ih => exact step_length_le e renv ih

/-- Self-healing invariant over reachable states: a running board is never
empty once events settle. -/
theorem reachable_running_ne_nil {s : GameState} (h : Reachable s) :
    s.isGameStarted = true → s.targets ≠ [] := by
  induction h with
  | init => intro hrun; simp [initialState] at hrun
  | next e renv _ _ => exact fun hrun => step_running_ne_nil e renv _ hrun

theorem findTarget_mem {tid : ℚ} {ts : List Target} {t : Target}
    (h : findTarget tid ts = some t) : t ∈ ts :=
  List.mem_of_find?_eq_some h

theorem findTarget_id {tid : ℚ} {ts : List Target} {t : Target}
    (h : findTarget tid ts = some t) : t.id = tid := by
  have := List.find?_some h
  simpa using this

theorem findTarget_ne_nil {tid : ℚ} {ts : List Target} {t : Target}
    (h : findTarget tid ts = some t) : ts ≠ [] := by
  intro hnil
  rw [hnil] at h
  simp [findTarget] at h

theorem handleCanvasClick_acc (s : GameState) :
    (handleCanvasClick s).gameStats.accurateClicks = s.gameStats.accurateClicks := by
  unfold handleCanvasClick; split <;> rfl

theorem handleCanvasClick_total_ge (s : GameState) :
    s.gameStats.totalClicks ≤ (handleCanvasClick s).gameStats.totalClicks := by
  unfold handleCanvasClick; split
  · exact le_refl _
  · simp

theorem handleCanvasClick_total_of_ne_nil {s : GameState} (h : s.targets ≠ []) :
    (handleCanvasClick s).gameStats.totalClicks = s.gameStats.totalClicks + 1 := by
  unfold handleCanvasClick
  rw [if_neg (by simpa [List.length_eq_zero] using h)]

theorem handleCanvasClick_avg (s : GameState) :
    (handleCanvasClick s).gameStats.averageReactionTime =
      s.gameStats.averageReactionTime := by
  unfold handleCanvasClick; split <;> rfl

theorem handleCanvasClick_score (s : GameState) :
    (handleCanvasClick s).score = s.score := by
  unfold handleCanvasClick; split <;> rfl

/-- Characterization of the resolving branch of `handleTargetClick`. -/
theorem handleTargetClick_resolve {tid : ℚ} {s : GameState} {t : Target}
    (now : ℚ) (env : GenEnv)
    (hf : findTarget tid s.targets = some t)
    (hres : ¬(t.requiresDoubleClick = true ∧ t.clickCount + 1 < 2)) :
    handleTargetClick now env tid s =
      generateTarget env
        { s with
          totalReactionTime := s.totalReactionTime + (now - t.createdAt)
          gameStats := { s.gameStats with
            accurateClicks := s.gameStats.accurateClicks + 1
            averageReactionTime :=
              (s.totalReactionTime + (now - t.createdAt)) /
                (s.gameStats.accurateClicks + 1) }
          targets := s.targets.map fun u =>
            if u.id = tid then { u with isHit := true } else u
          pendingRemovals := s.pendingRemovals ++ [tid] } := by
  unfold handleTargetClick
  rw [hf]
  simp only [recordHitStats]
  rw [if_neg hres]

/-- Characterization of the first-click branch of `handleTargetClick` on a
double-click target. -/
theorem handleTargetClick_pending {tid : ℚ} {s : GameState} {t : Target}
    (now : ℚ) (env : GenEnv)
    (hf : findTarget tid s.targets = some t)
    (hdc : t.requiresDoubleClick = true) (hcc : t.clickCount + 1 < 2) :
    handleTargetClick now env tid s =
      { s with targets := s.targets.map fun u =>
          if u.id = tid then { u with clickCount := t.clickCount + 1 } else u } := by
  unfold handleTargetClick
  rw [hf]
  dsimp only
  rw [if_pos ⟨hdc, hcc⟩]

/-- A click whose id is not live changes nothing in `handleTargetClick`. -/
theorem handleTargetClick_none {tid : ℚ} {s : GameState} (now : ℚ) (env : GenEnv)
    (hf : findTarget tid s.targets = none) :
    handleTargetClick now env tid s = s := by
  unfold handleTargetClick
  rw [hf]

theorem startGame_gameStats (env : GenEnv) (s : GameState) :
    (startGame env s).gameStats = initialStats := by
  unfold startGame
  simp only
  rw [generateTarget_gameStats]

theorem handleTargetClick_resolve_acc {tid : ℚ} {s : GameState} {t : Target}
    (now : ℚ) (env : GenEnv)
    (hf : findTarget tid s.targets = some t)
    (hres : ¬(t.requiresDoubleClick = true ∧ t.clickCount + 1 < 2)) :
    (handleTargetClick now env tid s).gameStats.accurateClicks =
      s.gameStats.accurateClicks + 1 := by
  rw [handleTargetClick_resolve now env hf hres, generateTarget_gameStats]

theorem handleTargetClick_resolve_total {tid : ℚ} {s : GameState} {t : Target}
    (now : ℚ) (env : GenEnv)
    (hf : findTarget tid s.targets = some t)
    (hres : ¬(t.requiresDoubleClick = true ∧ t.clickCount + 1 < 2)) :
    (handleTargetClick now env tid s).gameStats.totalClicks =
      s.gameStats.totalClicks := by
  rw [handleTargetClick_resolve now env hf hres, generateTarget_gameStats]

theorem handleTargetClick_resolve_avg {tid : ℚ} {s : GameState} {t : Target}
    (now : ℚ) (env : GenEnv)
    (hf : findTarget tid s.targets = some t)
    (hres : ¬(t.requiresDoubleClick = true ∧ t.clickCount + 1 < 2)) :
    (handleTargetClick now env tid s).gameStats.averageReactionTime =
      (s.totalReactionTime + (now - t.createdAt)) / (s.gameStats.accurateClicks + 1) := by
  rw [handleTargetClick_resolve now env hf hres, generateTarget_gameStats]

theorem handleTargetClick_resolve_trt {tid : ℚ} {s : GameState} {t : Target}
    (now : ℚ) (env : GenEnv)
    (hf : findTarget tid s.targets = some t)
    (hres : ¬(t.requiresDoubleClick = true ∧ t.clickCount + 1 < 2)) :
    (handleTargetClick now env tid s).totalReactionTime =
      s.totalReactionTime + (now - t.createdAt) := by
  rw [handleTargetClick_resolve now env hf hres, generateTarget_totalReactionTime]

theorem handleTargetClick_resolve_score {tid : ℚ} {s : GameState} {t : Target}
    (now : ℚ) (env : GenEnv)
    (hf : findTarget tid s.targets = some t)
    (hres : ¬(t.requiresDoubleClick = true ∧ t.clickCount + 1 < 2)) :
    (handleTargetClick now env tid s).score = s.score := by
  rw [handleTargetClick_resolve now env hf hres, generateTarget_score]

theorem handleTargetClick_resolve_ne_nil {tid : ℚ} {s : GameState} {t : Target}
    (now : ℚ) (env : GenEnv)
    (hf : findTarget tid s.targets = some t)
    (hres : ¬(t.requiresDoubleClick = true ∧ t.clickCount + 1 < 2)) :
    (handleTargetClick now env tid s).targets ≠ [] := by
  rw [handleTargetClick_resolve now env hf hres]
  apply generateTarget_ne_nil
  have hne : s.targets ≠ [] := findTarget_ne_nil hf
  simpa [List.map_eq_nil_iff] using hne

theorem clickTarget_stats_le (now : ℚ) (env : GenEnv) (tid : ℚ) {s : GameState}
    (h : s.gameStats.accurateClicks ≤ s.gameStats.totalClicks) :
    (handleCanvasClick (handleTargetClick now env tid s)).gameStats.accurateClicks ≤
      (handleCanvasClick (handleTargetClick now env tid s)).gameStats.totalClicks := by
  cases hf : findTarget tid s.targets with
  | none =>
      rw [handleTargetClick_none now env hf]
      rw [handleCanvasClick_acc]
      exact le_trans h (handleCanvasClick_total_ge s)
  | some t =>
      by_cases hcond : t.requiresDoubleClick = true ∧ t.clickCount + 1 < 2
      · rw [handleCanvasClick_acc]
        refine le_trans ?_ (handleCanvasClick_total_ge _)
        rw [handleTargetClick_pending now env hf hcond.1 hcond.2]
        exact h
      · rw [handleCanvasClick_acc,
          handleCanvasClick_total_of_ne_nil (handleTargetClick_resolve_ne_nil now env hf hcond),
          handleTargetClick_resolve_acc now env hf hcond,
          handleTargetClick_resolve_total now env hf hcond]
        omega

theorem handleMouseMove_acc_total (cx cy d : ℚ) (env : GenEnv) (s : GameState) :
    (handleMouseMove cx cy d env s).gameStats.accurateClicks =
        s.gameStats.accurateClicks ∧
      (handleMouseMove cx cy d env s).gameStats.totalClicks =
        s.gameStats.totalClicks := by
  unfold handleMouseMove
  split
  · exact ⟨rfl, rfl⟩
  · cases s.dragTarget with
    | none => exact ⟨rfl, rfl⟩
    | some dt =>
      simp only
      split
      · exact ⟨rfl, rfl⟩
      · cases hf : findTarget dt.id
          (GameState.targets { s with gameStats :=
            { s.gameStats with totalDistance := s.gameStats.totalDistance + d } }) with
        | none => exact ⟨rfl, rfl⟩
        | some target =>
          simp only
          cases hp : target.pathPoints with
          | none => exact ⟨rfl, rfl⟩
          | some pts =>
            simp only
            split
            · exact ⟨rfl, rfl⟩
            · split
              · rw [generateTarget_gameStats]; exact ⟨rfl, rfl⟩
              · exact ⟨rfl, rfl⟩

theorem handleEvent_stats_le (e : Event) {s : GameState}
    (h : s.gameStats.accurateClicks ≤ s.gameStats.totalClicks) :
    (handleEvent e s).gameStats.accurateClicks ≤
      (handleEvent e s).gameStats.totalClicks := by
  cases e with
  | start env =>
      show (startGame env s).gameStats.accurateClicks ≤
        (startGame env s).gameStats.totalClicks
      rw [startGame_gameStats]
      decide
  | clickTarget tid now env => exact clickTarget_stats_le now env tid h
  | clickMiss =>
      show (handleCanvasClick s).gameStats.accurateClicks ≤
        (handleCanvasClick s).gameStats.totalClicks
      rw [handleCanvasClick_acc]
      exact le_trans h (handleCanvasClick_total_ge s)
  | mouseDown tid cx cy =>
      show (handleTargetMouseDown tid cx cy s).gameStats.accurateClicks ≤
        (handleTargetMouseDown tid cx cy s).gameStats.totalClicks
      unfold handleTargetMouseDown
      cases findTarget tid s.targets with
      | none => exact h
      | some target => simp only; split <;> exact h
  | mouseMove cx cy d env =>
      have hm := handleMouseMove_acc_total cx cy d env s
      show (handleMouseMove cx cy d env s).gameStats.accurateClicks ≤
        (handleMouseMove cx cy d env s).gameStats.totalClicks
      rw [hm.1, hm.2]; exact h
  | mouseUp =>
      show (handleMouseUp s).gameStats.accurateClicks ≤
        (handleMouseUp s).gameStats.totalClicks
      unfold handleMouseUp
      cases s.dragTarget with
      | none => exact h
      | some dt => exact h
  | timerTick now =>
      show (tick now s).gameStats.accurateClicks ≤ (tick now s).gameStats.totalClicks
      unfold tick endGame saveGameRecord
      split
      · exact h
      · split <;> simp only <;> exact h
  | settle tid =>
      show (settleRemoval tid s).gameStats.accurateClicks ≤
        (settleRemoval tid s).gameStats.totalClicks
      unfold settleRemoval
      split <;> exact h
  | stop now =>
      show (stopGame now s).gameStats.accurateClicks ≤
        (stopGame now s).gameStats.totalClicks
      unfold stopGame endGame saveGameRecord
      simp only
      exact h
  | setDur d =>
      show (setDuration d s).gameStats.accurateClicks ≤
        (setDuration d s).gameStats.totalClicks
      unfold setDuration
      split <;> exact h
  | setSens m =>
      show (setSensitivity m s).gameStats.accurateClicks ≤
        (setSensitivity m s).gameStats.totalClicks
      unfold setSensitivity
      split <;> exact h

theorem step_gameStats (e : Event) (renv : GenEnv) (s : GameState) :
    (step e renv s).gameStats = (handleEvent e s).gameStats := by
  unfold step
  rw [refillEffect_gameStats, intenseEffect_gameStats]

/-- Inductive stats invariant: accurate clicks never exceed total clicks. -/
theorem reachable_acc_le_total {s : GameState} (h : Reachable s) :
    s.gameStats.accurateClicks ≤ s.gameStats.totalClicks := by
  induction h with
  | init => simp [initialState, initialStats]
  | next e renv _ ih =>
      rw [step_gameStats]
      exact handleEvent_stats_le e ih

theorem clampProgress_nonneg (q : ℚ) : 0 ≤ clampProgress q := le_max_left 0 _

theorem clampProgress_le_one (q : ℚ) : clampProgress q ≤ 1 := by
  unfold clampProgress
  apply max_le
  · norm_num
  · exact min_le_left 1 q

theorem mem_genList_mkTarget {env : GenEnv} {s : GameState} {t : Target}
    (ht : t ∈ genList env s) : ∃ i, t = mkTarget env i := by
  simp only [genList, List.mem_map, List.mem_range] at ht
  obtain ⟨i, _, hi⟩ := ht
  exact ⟨i, hi.symm⟩

theorem mkTarget_targetOK (env : GenEnv) (i : Nat) : TargetOK (mkTarget env i) := by
  refine ⟨Nat.zero_le 1, le_refl 0, ?_⟩
  norm_num [mkTarget]

theorem mem_generateTarget {env : GenEnv} {s : GameState} {t : Target}
    (ht : t ∈ (generateTarget env s).targets) :
    t ∈ s.targets ∨ t ∈ genList env s := by
  unfold generateTarget at ht
  split at ht
  · exact Or.inl ht
  · exact List.mem_append.mp (List.mem_of_mem_take ht)

theorem generateTarget_targetOK {env : GenEnv} {s : GameState}
    (h : ∀ t ∈ s.targets, TargetOK t) :
    ∀ t ∈ (generateTarget env s).targets, TargetOK t := by
  intro t ht
  rcases mem_generateTarget ht with hmem | hmem
  · exact h t hmem
  · obtain ⟨i, rfl⟩ := mem_genList_mkTarget hmem
    exact mkTarget_targetOK env i

theorem handleTargetClick_targetOK (now : ℚ) (env : GenEnv) (tid : ℚ)
    {s : GameState} (h : ∀ t ∈ s.targets, TargetOK t) :
    ∀ t ∈ (handleTargetClick now env tid s).targets, TargetOK t := by
  cases hf : findTarget tid s.targets with
  | none => rw [handleTargetClick_none now env hf]; exact h
  | some tt =>
    by_cases hcond : tt.requiresDoubleClick = true ∧ tt.clickCount + 1 < 2
    · rw [handleTargetClick_pending now env hf hcond.1 hcond.2]
      intro t ht
      simp only [List.mem_map] at ht
      obtain ⟨u, hu, rfl⟩ := ht
      by_cases hid : u.id = tid
      · rw [if_pos hid]
        obtain ⟨_, hp⟩ := h u hu
        refine ⟨?_, hp⟩
        show tt.clickCount + 1 ≤ 1
        omega
      · rw [if_neg hid]
        exact h u hu
    · rw [handleTargetClick_resolve now env hf hcond]
      apply generateTarget_targetOK
      intro t ht
      simp only [List.mem_map] at ht
      obtain ⟨u, hu, rfl⟩ := ht
      by_cases hid : u.id = tid
      · rw [if_pos hid]
        obtain ⟨hc, hp⟩ := h u hu
        exact ⟨hc, hp⟩
      · rw [if_neg hid]
        exact h u hu

theorem handleMouseMove_targetOK (cx cy d : ℚ) (env : GenEnv)
    {s : GameState} (h : ∀ t ∈ s.targets, TargetOK t) :
    ∀ t ∈ (handleMouseMove cx cy d env s).targets, TargetOK t := by
  unfold handleMouseMove
  split
  · exact h
  · cases s.dragTarget with
    | none => exact h
    | some dt =>
      simp only
      split
      · exact h
      · cases hf : findTarget dt.id
          (GameState.targets { s with gameStats :=
            { s.gameStats with totalDistance := s.gameStats.totalDistance + d } }) with
        | none => exact h
        | some target =>
          simp only
          cases hp : target.pathPoints with
          | none => exact h
          | some pts =>
            simp only
            split
            · exact h
            · split
              · apply generateTarget_targetOK
                intro t ht
                simp only [List.mem_filter] at ht
                exact h t ht.1
              · intro t ht
                simp only [List.mem_map] at ht
                obtain ⟨u, hu, rfl⟩ := ht
                by_cases hid : u.id = target.id
                · rw [if_pos hid]
                  obtain ⟨hc, _⟩ := h u hu
                  exact ⟨hc, clampProgress_nonneg _, clampProgress_le_one _⟩
                · rw [if_neg hid]
                  exact h u hu

theorem handleEvent_targetOK (e : Event) {s : GameState}
    (h : ∀ t ∈ s.targets, TargetOK t) :
    ∀ t ∈ (handleEvent e s).targets, TargetOK t := by
  cases e with
  | start env =>
      show ∀ t ∈ (startGame env s).targets, TargetOK t
      unfold startGame
      simp only
      exact generateTarget_targetOK (by simpa using h)
  | clickTarget tid now env =>
      show ∀ t ∈ (handleCanvasClick (handleTargetClick now env tid s)).targets, TargetOK t
      rw [handleCanvasClick_targets]
      exact handleTargetClick_targetOK now env tid h
  | clickMiss =>
      show ∀ t ∈ (handleCanvasClick s).targets, TargetOK t
      rw [handleCanvasClick_targets]; exact h
  | mouseDown tid cx cy =>
      show ∀ t ∈ (handleTargetMouseDown tid cx cy s).targets, TargetOK t
      unfold handleTargetMouseDown
      cases findTarget tid s.targets with
      | none => exact h
      | some target =>
        simp only
        split
        · intro t ht
          simp only [List.mem_map] at ht
          obtain ⟨u, hu, rfl⟩ := ht
          by_cases hid : u.id = tid
          · rw [if_pos hid]
            obtain ⟨hc, hpr⟩ := h u hu
            exact ⟨hc, hpr⟩
          · rw [if_neg hid]
            exact h u hu
        · exact h
  | mouseMove cx cy d env => exact handleMouseMove_targetOK cx cy d env h
  | mouseUp =>
      show ∀ t ∈ (handleMouseUp s).targets, TargetOK t
      unfold handleMouseUp
      cases s.dragTarget with
      | none => exact h
      | some dt =>
        intro t ht
        simp only [List.mem_map] at ht
        obtain ⟨u, hu, rfl⟩ := ht
        by_cases hid : u.id = dt.id
        · rw [if_pos hid]
          obtain ⟨hc, hpr⟩ := h u hu
          exact ⟨hc, hpr⟩
        · rw [if_neg hid]
          exact h u hu
  | timerTick now =>
      show ∀ t ∈ (tick now s).targets, TargetOK t
      unfold tick
      split
      · exact h
      · split
        · intro t ht
          simp [endGame, saveGameRecord] at ht
        · exact h
  | settle tid =>
      show ∀ t ∈ (settleRemoval tid s).targets, TargetOK t
      unfold settleRemoval
      split
      · intro t ht
        simp only [List.mem_filter] at ht
        exact h t ht.1
      · exact h
  | stop now =>
      show ∀ t ∈ (stopGame now s).targets, TargetOK t
      intro t ht
      simp [stopGame, endGame, saveGameRecord] at ht
  | setDur d =>
      show ∀ t ∈ (setDuration d s).targets, TargetOK t
      unfold setDuration
      split <;> exact h
  | setSens m =>
      show ∀ t ∈ (setSensitivity m s).targets, TargetOK t
      unfold setSensitivity
      split <;> exact h

theorem step_targetOK (e : Event) (renv : GenEnv) {s : GameState}
    (h : ∀ t ∈ s.targets, TargetOK t) :
    ∀ t ∈ (step e renv s).targets, TargetOK t := by
  unfold step refillEffect
  split
  · exact generateTarget_targetOK (by rw [intenseEffect_targets]; exact handleEvent_targetOK e h)
  · rw [intenseEffect_targets]
    exact handleEvent_targetOK e h

/-- Inductive per-target invariant over reachable states. -/
theorem reachable_targetOK {s : GameState} (h : Reachable s) :
    ∀ t ∈ s.targets, TargetOK t := by
  induction h with
  | init => intro t ht; simp [initialState] at ht
  | next e renv _ ih => exact step_targetOK e renv ih

theorem sortRecords_length (rs : List GameRecord) :
    (sortRecords rs).length = rs.length :=
  (List.mergeSort_perm rs _).length_eq

theorem endGame_records_length (now : ℚ) (s : GameState) :
    (endGame now s).records.length = s.records.length + 1 := by
  unfold endGame saveGameRecord
  simp only
  rw [sortRecords_length]
  simp

theorem stopGame_records_length (now : ℚ) (s : GameState) :
    (stopGame now s).records.length = s.records.length + 1 := by
  unfold stopGame
  exact endGame_records_length now s

theorem step_records (e : Event) (renv : GenEnv) (s : GameState) :
    (step e renv s).records = (handleEvent e s).records := by
  unfold step
  rw [refillEffect_records, intenseEffect_records]

theorem step_stop_records_length (now : ℚ) (renv : GenEnv) (s : GameState) :
    (step (Event.stop now) renv s).records.length = s.records.length + 1 := by
  rw [step_records]
  exact stopGame_records_length now s

theorem tick_records_length_of_end (now : ℚ) {s : GameState}
    (h1 : s.timerActive = true) (h2 : s.timeLeft ≤ 1) :
    (tick now s).records.length = s.records.length + 1 := by
  unfold tick
  rw [if_neg (by rw [h1]; simp), if_pos h2]
  exact endGame_records_length now s

/-- C1. The spec says the intense-mode flag recomputed on a tick holds iff
`remaining ≤ duration * 0.25`, and the source comment above the effect
agrees ("Check if we are in the last 25% of the game"), but the computation
compares against `sessionDuration * 0.75`: with duration 60 and 45 seconds
remaining the recomputation turns intense mode on although 45 > 60 * 0.25.
The code contradicts its own comment and the spec, a code bug. -/
theorem C1_intense_threshold_bug :
    (intenseEffect { startedEmpty with sessionDuration := 60, timeLeft := 45 }).isIntenseMode
        = true
      ∧ ¬ ((45 : ℚ) ≤ 60 * (1 / 4))
      ∧ isIntenseModeUpdate 60 45 = true := by
  refine ⟨?_, by norm_num, ?_⟩
  · simp only [intenseEffect, startedEmpty, initialState]
    norm_num [isIntenseModeUpdate]
  · norm_num [isIntenseModeUpdate]

/-- C2. The live-target count of every reachable state is at most 3;
`generateTarget` refuses to produce targets when 3 are already live; and
when a call would push the total past 3 the combined list is truncated to
the first 3 entries, silently dropping the excess new targets. -/
theorem C2_live_target_cap :
    (∀ s : GameState, Reachable s → s.targets.length ≤ 3)
      ∧ (∀ (env : GenEnv) (s : GameState), 3 ≤ s.targets.length →
          generateTarget env s = s)
      ∧ (∀ (env : GenEnv) (s : GameState), s.targets.length < 3 →
          (generateTarget env s).targets = (s.targets ++ genList env s).take 3) :=
  ⟨fun _ h => reachable_length_le h,
   fun env _ h => generateTarget_of_ge env h,
   fun env _ h => generateTarget_targets_of_lt env h⟩

/-- C2 witness: the cap evaluated on the state reached by starting a
session, the refusal on a concrete 3-target state, and the truncation on
the initial empty board. -/
theorem C2_live_target_cap_witness :
    Reachable (step (Event.start sampleEnv) sampleEnv initialState)
      ∧ (step (Event.start sampleEnv) sampleEnv initialState).targets.length ≤ 3
      ∧ 3 ≤ threeTargets.targets.length
      ∧ generateTarget sampleEnv threeTargets = threeTargets
      ∧ initialState.targets.length < 3
      ∧ (generateTarget sampleEnv initialState).targets =
          (initialState.targets ++ genList sampleEnv initialState).take 3 := by
  have hr : Reachable (step (Event.start sampleEnv) sampleEnv initialState) :=
    Reachable.next _ _ Reachable.init
  have h3 : (3 : ℕ) ≤ threeTargets.targets.length := by
    simp [threeTargets, initialState]
  have h0 : initialState.targets.length < 3 := by simp [initialState]
  exact ⟨hr, C2_live_target_cap.1 _ hr, h3, C2_live_target_cap.2.1 sampleEnv _ h3,
    h0, C2_live_target_cap.2.2 sampleEnv _ h0⟩

/-- C3 counterexample: ending one session by a manual stop and then calling
stop again appends two GameRecords to the store, not one — the claimed
idempotence does not hold on the code (there is no finalization guard in
`endGame`). -/
theorem C3_counterexample_double_stop :
    (step (Event.stop 2) sampleEnv
        (step (Event.stop 1) sampleEnv
          (step (Event.start sampleEnv) sampleEnv initialState))).records.length = 2 := by
  rw [step_stop_records_length, step_stop_records_length, step_records]
  show (startGame sampleEnv initialState).records.length + 1 + 1 = 2
  unfold startGame
  simp only
  rw [generateTarget_records]
  simp [initialState]

/-- C3 amended: each invocation of the finalization path appends exactly
one GameRecord — `stopGame`, a session-ending tick, and `endGame` each grow
the record store by one, with no idempotence guard, so a second stop
appends a second record.  (In the rendered UI the stop control disappears
once the session ends, which is what normally limits finalization to one
run per session.) -/
theorem C3_finalization_appends_one_record :
    (∀ (now : ℚ) (renv : GenEnv) (s : GameState),
        (step (Event.stop now) renv s).records.length = s.records.length + 1)
      ∧ (∀ (now : ℚ) (s : GameState), s.timerActive = true → s.timeLeft ≤ 1 →
          (tick now s).records.length = s.records.length + 1)
      ∧ (∀ (now : ℚ) (s : GameState),
          (endGame now s).records.length = s.records.length + 1) :=
  ⟨fun now renv s => step_stop_records_length now renv s,
   fun now _ h1 h2 => tick_records_length_of_end now h1 h2,
   fun now s => endGame_records_length now s⟩

/-- C3 witness: the tick part evaluated at a concrete armed state with one
second left. -/
theorem C3_finalization_appends_one_record_witness :
    endingState.timerActive = true ∧ endingState.timeLeft ≤ 1
      ∧ (tick 5 endingState).records.length = endingState.records.length + 1
      ∧ (step (Event.stop 6) sampleEnv endingState).records.length =
          endingState.records.length + 1 := by
  have h1 : endingState.timerActive = true := rfl
  have h2 : endingState.timeLeft ≤ 1 := by decide
  exact ⟨h1, h2, C3_finalization_appends_one_record.2.1 5 endingState h1 h2,
    C3_finalization_appends_one_record.1 6 sampleEnv endingState⟩

theorem startGame_isGameStarted (env : GenEnv) (s : GameState) :
    (startGame env s).isGameStarted = true := by
  unfold startGame
  simp only
  rw [generateTarget_isGameStarted]

theorem startGame_timeLeft (env : GenEnv) (s : GameState) :
    (startGame env s).timeLeft = s.sessionDuration := by
  unfold startGame
  simp only
  have : (generateTarget env { s with
      isGameStarted := true
      score := 0
      timeLeft := s.sessionDuration
      showSummary := false
      gameStats := initialStats
      totalReactionTime := 0 }).timeLeft = s.sessionDuration := by
    unfold generateTarget; split <;> rfl
  exact this

theorem intenseEffect_timeLeft (s : GameState) :
    (intenseEffect s).timeLeft = s.timeLeft := by
  unfold intenseEffect; split <;> rfl

theorem generateTarget_timeLeft (env : GenEnv) (s : GameState) :
    (generateTarget env s).timeLeft = s.timeLeft := by
  unfold generateTarget; split <;> rfl

theorem refillEffect_timeLeft (env : GenEnv) (s : GameState) :
    (refillEffect env s).timeLeft = s.timeLeft := by
  unfold refillEffect
  split
  · exact generateTarget_timeLeft env s
  · rfl

theorem step_isGameStarted (e : Event) (renv : GenEnv) (s : GameState) :
    (step e renv s).isGameStarted = (handleEvent e s).isGameStarted := by
  unfold step
  rw [refillEffect_isGameStarted, intenseEffect_isGameStarted]

theorem step_timeLeft (e : Event) (renv : GenEnv) (s : GameState) :
    (step e renv s).timeLeft = (handleEvent e s).timeLeft := by
  unfold step
  rw [refillEffect_timeLeft, intenseEffect_timeLeft]

/-- C7. Self-healing invariant: in every reachable running state with time
remaining the live-target set is nonempty, because the refill effect
triggers generation whenever the board of a running session empties, so
after any event settles the live-target count is positive. -/
theorem C7_self_healing_refill :
    (∀ s : GameState, Reachable s → s.isGameStarted = true → 0 < s.timeLeft →
        s.targets ≠ [])
      ∧ (∀ (e : Event) (renv : GenEnv) (s : GameState),
          (step e renv s).isGameStarted = true → (step e renv s).targets ≠ []) :=
  ⟨fun _ h hs _ => reachable_running_ne_nil h hs,
   fun e renv s h => step_running_ne_nil e renv s h⟩

/-- C7 witness: the state reached by starting a session is running with a
full clock and a nonempty board. -/
theorem C7_self_healing_refill_witness :
    Reachable (step (Event.start sampleEnv) sampleEnv initialState)
      ∧ (step (Event.start sampleEnv) sampleEnv initialState).isGameStarted = true
      ∧ 0 < (step (Event.start sampleEnv) sampleEnv initialState).timeLeft
      ∧ (step (Event.start sampleEnv) sampleEnv initialState).targets ≠ [] := by
  have hr : Reachable (step (Event.start sampleEnv) sampleEnv initialState) :=
    Reachable.next _ _ Reachable.init
  have hs : (step (Event.start sampleEnv) sampleEnv initialState).isGameStarted = true := by
    rw [step_isGameStarted]
    exact startGame_isGameStarted sampleEnv initialState
  have ht : 0 < (step (Event.start sampleEnv) sampleEnv initialState).timeLeft := by
    rw [step_timeLeft]
    show 0 < (startGame sampleEnv initialState).timeLeft
    rw [startGame_timeLeft]
    simp [initialState]
  exact ⟨hr, hs, ht, C7_self_healing_refill.1 _ hr hs ht⟩

/-- C10. A generation call preserves every previously live target
unchanged and in order (the old list is a prefix of the new one): when the
guard refuses, the state is unchanged; otherwise the result is the old
list followed by the new targets truncated to the 3-cap, so only newly
generated targets are ever dropped. -/
theorem C10_generation_frame :
    ∀ (env : GenEnv) (s : GameState),
      (∃ rest, (generateTarget env s).targets = s.targets ++ rest)
        ∧ (3 ≤ s.targets.length → generateTarget env s = s)
        ∧ (s.targets.length < 3 →
            (generateTarget env s).targets =
              s.targets ++ (genList env s).take (3 - s.targets.length)) := by
  intro env s
  have hlt : s.targets.length < 3 →
      (generateTarget env s).targets =
        s.targets ++ (genList env s).take (3 - s.targets.length) := by
    intro h
    rw [generateTarget_targets_of_lt env h, List.take_append_eq_append_take,
      List.take_of_length_le (le_of_lt h)]
  refine ⟨?_, fun h => generateTarget_of_ge env h, hlt⟩
  by_cases h : 3 ≤ s.targets.length
  · exact ⟨[], by rw [generateTarget_of_ge env h, List.append_nil]⟩
  · exact ⟨(genList env s).take (3 - s.targets.length), hlt (by omega)⟩

/-- C10 witness: frame property evaluated at a full board (call refused)
and at the empty initial board (old empty list is a prefix). -/
theorem C10_generation_frame_witness :
    3 ≤ threeTargets.targets.length
      ∧ generateTarget sampleEnv threeTargets = threeTargets
      ∧ initialState.targets.length < 3
      ∧ (generateTarget sampleEnv initialState).targets =
          initialState.targets ++
            (genList sampleEnv initialState).take (3 - initialState.targets.length) := by
  have h3 : (3 : ℕ) ≤ threeTargets.targets.length := by simp [threeTargets, initialState]
  have h0 : initialState.targets.length < 3 := by simp [initialState]
  exact ⟨h3, (C10_generation_frame sampleEnv threeTargets).2.1 h3, h0,
    (C10_generation_frame sampleEnv initialState).2.2 h0⟩

theorem runHits_spec (rs : List ℚ) : ∀ s : GameState,
    (runHits rs s).totalReactionTime = s.totalReactionTime + rs.sum
      ∧ (runHits rs s).gameStats.accurateClicks =
          s.gameStats.accurateClicks + rs.length
      ∧ (rs ≠ [] → (runHits rs s).gameStats.averageReactionTime =
          (s.totalReactionTime + rs.sum) /
            ((s.gameStats.accurateClicks : ℚ) + (rs.length : ℚ))) := by
  induction rs with
  | nil =>
      intro s
      refine ⟨by simp [runHits], by simp [runHits], fun h => absurd rfl h⟩
  | cons r rs ih =>
      intro s
      have hstep : runHits (r :: rs) s = runHits rs (recordHitStats r s) := rfl
      obtain ⟨h1, h2, h3⟩ := ih (recordHitStats r s)
      rw [hstep]
      have ht : (recordHitStats r s).totalReactionTime = s.totalReactionTime + r := rfl
      have ha : (recordHitStats r s).gameStats.accurateClicks =
          s.gameStats.accurateClicks + 1 := rfl
      refine ⟨?_, ?_, ?_⟩
      · rw [h1, ht, List.sum_cons]; ring
      · rw [h2, ha, List.length_cons]; omega
      · intro _
        cases rs with
        | nil =>
            have : runHits [] (recordHitStats r s) = recordHitStats r s := rfl
            rw [this]
            have hv : (recordHitStats r s).gameStats.averageReactionTime =
                (s.totalReactionTime + r) / ((s.gameStats.accurateClicks : ℚ) + 1) := rfl
            rw [hv]
            simp
        | cons r2 rs2 =>
            rw [h3 (by simp), ht, ha]
            simp only [List.sum_cons, List.length_cons]
            push_cast
            ring_nf

/-- C5. After a sequence of N >= 1 resolved hits with reaction times
r1..rN starting from freshly reset stats, the recorded average reaction
time is (r1+...+rN)/N; and one resolving click in `handleTargetClick`
performs exactly that update, with reaction time `now - createdAt` of the
hit target. -/
theorem C5_average_reaction_time :
    (∀ (rs : List ℚ) (s : GameState),
        s.totalReactionTime = 0 → s.gameStats.accurateClicks = 0 → rs ≠ [] →
        (runHits rs s).gameStats.averageReactionTime = rs.sum / (rs.length : ℚ))
      ∧ (∀ (now : ℚ) (env : GenEnv) (tid : ℚ) (s : GameState) (t : Target),
          findTarget tid s.targets = some t →
          ¬(t.requiresDoubleClick = true ∧ t.clickCount + 1 < 2) →
          (handleTargetClick now env tid s).totalReactionTime =
              s.totalReactionTime + (now - t.createdAt)
            ∧ (handleTargetClick now env tid s).gameStats.accurateClicks =
              s.gameStats.accurateClicks + 1
            ∧ (handleTargetClick now env tid s).gameStats.averageReactionTime =
              (s.totalReactionTime + (now - t.createdAt)) /
                ((s.gameStats.accurateClicks : ℚ) + 1)) := by
  constructor
  · intro rs s h0 ha hne
    have h := (runHits_spec rs s).2.2 hne
    rw [h, h0, ha]
    simp
  · intro now env tid s t hf hres
    exact ⟨handleTargetClick_resolve_trt now env hf hres,
      handleTargetClick_resolve_acc now env hf hres,
      handleTargetClick_resolve_avg now env hf hres⟩

/-- C5 witness: the single-hit sequence [250] from reset stats — the spec
scenario — and one concrete resolving click on a live standard target. -/
theorem C5_average_reaction_time_witness :
    initialState.totalReactionTime = 0
      ∧ initialState.gameStats.accurateClicks = 0
      ∧ ([(250 : ℚ)] ≠ [])
      ∧ (runHits [(250 : ℚ)] initialState).gameStats.averageReactionTime =
          [(250 : ℚ)].sum / (([(250 : ℚ)].length : ℚ))
      ∧ findTarget 1 threeTargets.targets = some (tinyTarget 1)
      ∧ ¬((tinyTarget 1).requiresDoubleClick = true ∧ (tinyTarget 1).clickCount + 1 < 2)
      ∧ (handleTargetClick 300 sampleEnv 1 threeTargets).gameStats.accurateClicks =
          threeTargets.gameStats.accurateClicks + 1 := by
  have h0 : initialState.totalReactionTime = 0 := rfl
  have ha : initialState.gameStats.accurateClicks = 0 := rfl
  have hne : ([(250 : ℚ)] ≠ []) := by simp
  have hf : findTarget 1 threeTargets.targets = some (tinyTarget 1) := by rfl
  have hres : ¬((tinyTarget 1).requiresDoubleClick = true ∧
      (tinyTarget 1).clickCount + 1 < 2) := by decide
  exact ⟨h0, ha, hne, C5_average_reaction_time.1 [(250 : ℚ)] initialState h0 ha hne,
    hf, hres, (C5_average_reaction_time.2 300 sampleEnv 1 threeTargets (tinyTarget 1) hf hres).2.1⟩

theorem step_clickMiss_stats (renv : GenEnv) {s : GameState} (hne : s.targets ≠ []) :
    (step Event.clickMiss renv s).gameStats.totalClicks = s.gameStats.totalClicks + 1
      ∧ (step Event.clickMiss renv s).gameStats.accurateClicks =
          s.gameStats.accurateClicks := by
  simp only [step_gameStats]
  exact ⟨handleCanvasClick_total_of_ne_nil hne, handleCanvasClick_acc s⟩

theorem step_clickTarget_stats (now : ℚ) (env : GenEnv) (tid : ℚ) (renv : GenEnv)
    {s : GameState} {t : Target} (hf : findTarget tid s.targets = some t) :
    (step (Event.clickTarget tid now env) renv s).gameStats.totalClicks =
        s.gameStats.totalClicks + 1
      ∧ (¬(t.requiresDoubleClick = true ∧ t.clickCount + 1 < 2) →
          (step (Event.clickTarget tid now env) renv s).gameStats.accurateClicks =
            s.gameStats.accurateClicks + 1)
      ∧ ((t.requiresDoubleClick = true ∧ t.clickCount + 1 < 2) →
          (step (Event.clickTarget tid now env) renv s).gameStats.accurateClicks =
            s.gameStats.accurateClicks) := by
  simp only [step_gameStats]
  by_cases hcond : t.requiresDoubleClick = true ∧ t.clickCount + 1 < 2
  · have hpend := handleTargetClick_pending now env hf hcond.1 hcond.2
    have hnn : (handleTargetClick now env tid s).targets ≠ [] := by
      rw [hpend]
      simpa [List.map_eq_nil_iff] using findTarget_ne_nil hf
    have h1 : (handleCanvasClick (handleTargetClick now env tid s)).gameStats.totalClicks =
        s.gameStats.totalClicks + 1 := by
      rw [handleCanvasClick_total_of_ne_nil hnn, hpend]
    have h2 : (handleCanvasClick (handleTargetClick now env tid s)).gameStats.accurateClicks =
        s.gameStats.accurateClicks := by
      rw [handleCanvasClick_acc, hpend]
    exact ⟨h1, fun h => absurd hcond h, fun _ => h2⟩
  · have hnn := handleTargetClick_resolve_ne_nil now env hf hcond
    have h1 : (handleCanvasClick (handleTargetClick now env tid s)).gameStats.totalClicks =
        s.gameStats.totalClicks + 1 := by
      rw [handleCanvasClick_total_of_ne_nil hnn,
        handleTargetClick_resolve_total now env hf hcond]
    have h2 : (handleCanvasClick (handleTargetClick now env tid s)).gameStats.accurateClicks =
        s.gameStats.accurateClicks + 1 := by
      rw [handleCanvasClick_acc, handleTargetClick_resolve_acc now env hf hcond]
    exact ⟨h1, fun _ => h2, fun h => absurd h hcond⟩

theorem mkGameRecord_accuracy_zero (now : ℚ) {s : GameState}
    (h : s.gameStats.totalClicks = 0) : (mkGameRecord now s).accuracy = 0 := by
  unfold mkGameRecord
  simp only
  rw [if_neg]
  rw [h]
  simp

theorem mkGameRecord_accuracy_pos (now : ℚ) {s : GameState}
    (h : 0 < s.gameStats.totalClicks) :
    (mkGameRecord now s).accuracy =
      ((s.gameStats.accurateClicks : ℚ) / (s.gameStats.totalClicks : ℚ)) * 100 := by
  unfold mkGameRecord
  simp only
  rw [if_pos h]

/-- C6. In every reachable state accurate clicks never exceed total
clicks; in a reachable running state a miss click bumps only the total
while a click on a live target bumps the total and bumps the accurate
count exactly when it resolves; and the persisted accuracy is the ratio
accurateClicks/totalClicks (as a percentage), defined as 0 — not NaN or an
error — when totalClicks = 0. -/
theorem C6_accuracy_counting :
    (∀ s : GameState, Reachable s →
        s.gameStats.accurateClicks ≤ s.gameStats.totalClicks)
      ∧ (∀ (renv : GenEnv) (s : GameState), Reachable s → s.isGameStarted = true →
          (step Event.clickMiss renv s).gameStats.totalClicks =
              s.gameStats.totalClicks + 1
            ∧ (step Event.clickMiss renv s).gameStats.accurateClicks =
              s.gameStats.accurateClicks)
      ∧ (∀ (now : ℚ) (env : GenEnv) (tid : ℚ) (renv : GenEnv) (s : GameState)
          (t : Target), findTarget tid s.targets = some t →
          (step (Event.clickTarget tid now env) renv s).gameStats.totalClicks =
              s.gameStats.totalClicks + 1
            ∧ (¬(t.requiresDoubleClick = true ∧ t.clickCount + 1 < 2) →
                (step (Event.clickTarget tid now env) renv s).gameStats.accurateClicks =
                  s.gameStats.accurateClicks + 1)
            ∧ ((t.requiresDoubleClick = true ∧ t.clickCount + 1 < 2) →
                (step (Event.clickTarget tid now env) renv s).gameStats.accurateClicks =
                  s.gameStats.accurateClicks))
      ∧ (∀ (now : ℚ) (s : GameState),
          (s.gameStats.totalClicks = 0 → (mkGameRecord now s).accuracy = 0)
            ∧ (0 < s.gameStats.totalClicks → (mkGameRecord now s).accuracy =
                ((s.gameStats.accurateClicks : ℚ) / (s.gameStats.totalClicks : ℚ)) * 100)) := by
  refine ⟨fun _ h => reachable_acc_le_total h, ?_, ?_, ?_⟩
  · intro renv s hr hs
    exact step_clickMiss_stats renv (reachable_running_ne_nil hr hs)
  · intro now env tid renv s t hf
    exact step_clickTarget_stats now env tid renv hf
  · intro now s
    exact ⟨fun h => mkGameRecord_accuracy_zero now h,
      fun h => mkGameRecord_accuracy_pos now h⟩

/-- C6 witness: counting evaluated at the reachable started state, a click
on a concrete live standard target, and the accuracy guard at zero and at
a 2-of-4 stats snapshot. -/
theorem C6_accuracy_counting_witness :
    Reachable (step (Event.start sampleEnv) sampleEnv initialState)
      ∧ (step (Event.start sampleEnv) sampleEnv initialState).isGameStarted = true
      ∧ (step Event.clickMiss sampleEnv
            (step (Event.start sampleEnv) sampleEnv initialState)).gameStats.totalClicks =
          (step (Event.start sampleEnv) sampleEnv initialState).gameStats.totalClicks + 1
      ∧ findTarget 1 threeTargets.targets = some (tinyTarget 1)
      ∧ (step (Event.clickTarget 1 300 sampleEnv) sampleEnv threeTargets).gameStats.totalClicks =
          threeTargets.gameStats.totalClicks + 1
      ∧ initialState.gameStats.totalClicks = 0
      ∧ (mkGameRecord 0 initialState).accuracy = 0
      ∧ 0 < statState.gameStats.totalClicks
      ∧ (mkGameRecord 0 statState).accuracy =
          ((statState.gameStats.accurateClicks : ℚ) /
            (statState.gameStats.totalClicks : ℚ)) * 100 := by
  have hr : Reachable (step (Event.start sampleEnv) sampleEnv initialState) :=
    Reachable.next _ _ Reachable.init
  have hs : (step (Event.start sampleEnv) sampleEnv initialState).isGameStarted = true := by
    rw [step_isGameStarted]
    exact startGame_isGameStarted sampleEnv initialState
  have hf : findTarget 1 threeTargets.targets = some (tinyTarget 1) := by rfl
  have hz : initialState.gameStats.totalClicks = 0 := rfl
  have hp : 0 < statState.gameStats.totalClicks := by decide
  exact ⟨hr, hs, (C6_accuracy_counting.2.1 sampleEnv _ hr hs).1, hf,
    (C6_accuracy_counting.2.2.1 300 sampleEnv 1 sampleEnv threeTargets (tinyTarget 1) hf).1,
    hz, (C6_accuracy_counting.2.2.2 0 initialState).1 hz,
    hp, (C6_accuracy_counting.2.2.2 0 statState).2 hp⟩

theorem generateTarget_pendingRemovals (env : GenEnv) (s : GameState) :
    (generateTarget env s).pendingRemovals = s.pendingRemovals := by
  unfold generateTarget; split <;> rfl

theorem intenseEffect_pendingRemovals (s : GameState) :
    (intenseEffect s).pendingRemovals = s.pendingRemovals := by
  unfold intenseEffect; split <;> rfl

theorem refillEffect_pendingRemovals (env : GenEnv) (s : GameState) :
    (refillEffect env s).pendingRemovals = s.pendingRemovals := by
  unfold refillEffect
  split
  · exact generateTarget_pendingRemovals env s
  · rfl

theorem handleCanvasClick_pendingRemovals (s : GameState) :
    (handleCanvasClick s).pendingRemovals = s.pendingRemovals := by
  unfold handleCanvasClick; split <;> rfl

theorem step_pendingRemovals (e : Event) (renv : GenEnv) (s : GameState) :
    (step e renv s).pendingRemovals = (handleEvent e s).pendingRemovals := by
  unfold step
  rw [refillEffect_pendingRemovals, intenseEffect_pendingRemovals]

theorem step_score (e : Event) (renv : GenEnv) (s : GameState) :
    (step e renv s).score = (handleEvent e s).score := by
  unfold step
  rw [refillEffect_score, intenseEffect_score]

theorem handleTargetClick_resolve_pendingRemovals {tid : ℚ} {s : GameState}
    {t : Target} (now : ℚ) (env : GenEnv)
    (hf : findTarget tid s.targets = some t)
    (hres : ¬(t.requiresDoubleClick = true ∧ t.clickCount + 1 < 2)) :
    (handleTargetClick now env tid s).pendingRemovals =
      s.pendingRemovals ++ [tid] := by
  rw [handleTargetClick_resolve now env hf hres, generateTarget_pendingRemovals]

theorem step_targets_of_ne_nil (e : Event) (renv : GenEnv) {s : GameState}
    (h : (handleEvent e s).targets ≠ []) :
    (step e renv s).targets = (handleEvent e s).targets := by
  unfold step refillEffect
  rw [intenseEffect_targets]
  split
  · next hc => exact absurd (List.length_eq_zero.mp hc.2) h
  · exact intenseEffect_targets _

theorem findTarget_map_update (tid : ℚ) (g : Target → Target)
    (hg : ∀ u, (g u).id = u.id) (ts : List Target) :
    findTarget tid (ts.map fun u => if u.id = tid then g u else u) =
      (findTarget tid ts).map fun u => if u.id = tid then g u else u := by
  unfold findTarget
  rw [List.find?_map]
  have hp : ((fun t => decide (t.id = tid)) ∘ fun u => if u.id = tid then g u else u)
      = fun t => decide (t.id = tid) := by
    funext u
    by_cases h : u.id = tid
    · simp [Function.comp, h, hg]
    · simp [Function.comp, h]
  rw [hp]

theorem findTarget_eq_none_of {tid : ℚ} {ts : List Target}
    (h : ∀ u ∈ ts, u.id ≠ tid) : findTarget tid ts = none := by
  unfold findTarget
  apply List.find?_eq_none.mpr
  intro u hu
  simpa using h u hu

theorem mem_step_targets {e : Event} {renv : GenEnv} {s : GameState} {u : Target}
    (hu : u ∈ (step e renv s).targets) :
    u ∈ (handleEvent e s).targets ∨
      u ∈ genList renv (intenseEffect (handleEvent e s)) := by
  unfold step refillEffect at hu
  split at hu
  · rcases mem_generateTarget hu with h | h
    · rw [intenseEffect_targets] at h
      exact Or.inl h
    · exact Or.inr h
  · rw [intenseEffect_targets] at hu
    exact Or.inl hu

theorem genList_id_ne {env : GenEnv} {s : GameState} {tid : ℚ}
    (h0 : env.now ≠ tid) (h1 : env.now + 1 ≠ tid) :
    ∀ u ∈ genList env s, u.id ≠ tid := by
  intro u hu
  simp only [genList, List.mem_map, List.mem_range] at hu
  obtain ⟨i, hi, rfl⟩ := hu
  have h2 : i < 2 := lt_of_lt_of_le hi (genCount_le_two env s)
  have hor : i = 0 ∨ i = 1 := by omega
  rcases hor with rfl | rfl
  · show env.now + ((0 : ℕ) : ℚ) ≠ tid
    simpa using h0
  · show env.now + ((1 : ℕ) : ℚ) ≠ tid
    simpa using h1

theorem settleRemoval_of_mem {tid : ℚ} {s : GameState}
    (h : tid ∈ s.pendingRemovals) :
    settleRemoval tid s =
      { s with
        targets := s.targets.filter fun t => decide (t.id ≠ tid)
        score := s.score + 1
        pendingRemovals := s.pendingRemovals.erase tid } := by
  unfold settleRemoval
  rw [if_pos h]

theorem settleRemoval_gameStats (tid : ℚ) (s : GameState) :
    (settleRemoval tid s).gameStats = s.gameStats := by
  unfold settleRemoval; split <;> rfl

/-- C4. Double-click protocol: the first click on a live double-click
target stores click count 1, keeps the target live and changes neither
score nor accurate clicks; the second click together with its scheduled
settle removal resolves it, incrementing score and accurate clicks by one
and removing it (provided the refill oracle spawns fresh ids); a stored
click count never exceeds 2 in any reachable state; and a click on an id
that is no longer live is a no-op in `handleTargetClick`. -/
theorem C4_double_click_protocol :
    (∀ (now : ℚ) (env renv : GenEnv) (tid : ℚ) (s : GameState) (t : Target),
        findTarget tid s.targets = some t →
        t.requiresDoubleClick = true → t.clickCount = 0 →
        findTarget tid (step (Event.clickTarget tid now env) renv s).targets =
            some { t with clickCount := 1 }
          ∧ (step (Event.clickTarget tid now env) renv s).score = s.score
          ∧ (step (Event.clickTarget tid now env) renv s).gameStats.accurateClicks =
            s.gameStats.accurateClicks)
      ∧ (∀ (now : ℚ) (env renv renv2 : GenEnv) (tid : ℚ) (s : GameState) (t : Target),
          findTarget tid s.targets = some t →
          t.requiresDoubleClick = true → t.clickCount = 1 →
          renv2.now ≠ tid → renv2.now + 1 ≠ tid →
          (step (Event.settle tid) renv2
              (step (Event.clickTarget tid now env) renv s)).score = s.score + 1
            ∧ (step (Event.settle tid) renv2
                (step (Event.clickTarget tid now env) renv s)).gameStats.accurateClicks =
              s.gameStats.accurateClicks + 1
            ∧ findTarget tid (step (Event.settle tid) renv2
                (step (Event.clickTarget tid now env) renv s)).targets = none)
      ∧ (∀ (now : ℚ) (env : GenEnv) (tid : ℚ) (s : GameState),
          findTarget tid s.targets = none → handleTargetClick now env tid s = s)
      ∧ (∀ s : GameState, Reachable s → ∀ t ∈ s.targets, t.clickCount ≤ 2) := by
  refine ⟨?_, ?_, ?_, ?_⟩
  · intro now env renv tid s t hf hdc hcc
    have hcc2 : t.clickCount + 1 < 2 := by omega
    have hpend := handleTargetClick_pending now env hf hdc hcc2
    have htg : (handleEvent (Event.clickTarget tid now env) s).targets =
        s.targets.map fun u =>
          if u.id = tid then { u with clickCount := t.clickCount + 1 } else u := by
      show (handleCanvasClick (handleTargetClick now env tid s)).targets = _
      rw [handleCanvasClick_targets, hpend]
    have hne : (handleEvent (Event.clickTarget tid now env) s).targets ≠ [] := by
      rw [htg]
      simpa [List.map_eq_nil_iff] using findTarget_ne_nil hf
    have hstep := step_targets_of_ne_nil (Event.clickTarget tid now env) renv hne
    have hid := findTarget_id hf
    refine ⟨?_, ?_, ?_⟩
    · rw [hstep, htg,
        findTarget_map_update tid (fun u => { u with clickCount := t.clickCount + 1 })
          (fun _ => rfl) s.targets, hf]
      simp [hid, hcc]
    · rw [step_score]
      show (handleCanvasClick (handleTargetClick now env tid s)).score = s.score
      rw [handleCanvasClick_score, hpend]
    · exact (step_clickTarget_stats now env tid renv hf).2.2 ⟨hdc, hcc2⟩
  · intro now env renv renv2 tid s t hf hdc hcc hfr0 hfr1
    have hres : ¬(t.requiresDoubleClick = true ∧ t.clickCount + 1 < 2) := by
      rintro ⟨_, h⟩
      omega
    have hsc1 : (step (Event.clickTarget tid now env) renv s).score = s.score := by
      rw [step_score]
      show (handleCanvasClick (handleTargetClick now env tid s)).score = s.score
      rw [handleCanvasClick_score]
      exact handleTargetClick_resolve_score now env hf hres
    have hacc1 : (step (Event.clickTarget tid now env) renv s).gameStats.accurateClicks =
        s.gameStats.accurateClicks + 1 :=
      (step_clickTarget_stats now env tid renv hf).2.1 hres
    have hpr1 : tid ∈ (step (Event.clickTarget tid now env) renv s).pendingRemovals := by
      rw [step_pendingRemovals]
      show tid ∈ (handleCanvasClick (handleTargetClick now env tid s)).pendingRemovals
      rw [handleCanvasClick_pendingRemovals,
        handleTargetClick_resolve_pendingRemovals now env hf hres]
      simp
    have hsettle := settleRemoval_of_mem hpr1
    have hscore : (step (Event.settle tid) renv2
        (step (Event.clickTarget tid now env) renv s)).score =
        (step (Event.clickTarget tid now env) renv s).score + 1 := by
      rw [step_score]
      show (settleRemoval tid (step (Event.clickTarget tid now env) renv s)).score = _
      rw [hsettle]
    have hst2 : (step (Event.settle tid) renv2
        (step (Event.clickTarget tid now env) renv s)).gameStats =
        (step (Event.clickTarget tid now env) renv s).gameStats := by
      rw [step_gameStats]
      exact settleRemoval_gameStats tid _
    refine ⟨by rw [hscore, hsc1], by rw [hst2, hacc1], ?_⟩
    apply findTarget_eq_none_of
    intro u hu
    rcases mem_step_targets hu with h | h
    · have hmem : u ∈ (settleRemoval tid
          (step (Event.clickTarget tid now env) renv s)).targets := h
      rw [hsettle] at hmem
      simp only [List.mem_filter, decide_eq_true_eq] at hmem
      exact hmem.2
    · exact genList_id_ne hfr0 hfr1 u h
  · intro now env tid s hf
    exact handleTargetClick_none now env hf
  · intro s h t ht
    exact le_trans (reachable_targetOK h t ht).1 (by omega)

/-- C4 witness: the protocol evaluated on a concrete live double-click
target (first click, then the second click with its settle), and the
no-op click on the empty initial board. -/
theorem C4_double_click_protocol_witness :
    findTarget 7 dblState.targets = some dblTarget
      ∧ dblTarget.requiresDoubleClick = true
      ∧ dblTarget.clickCount = 0
      ∧ findTarget 7 (step (Event.clickTarget 7 100 sampleEnv) sampleEnv dblState).targets =
          some { dblTarget with clickCount := 1 }
      ∧ findTarget 7 dblState1.targets = some dblTarget1
      ∧ dblTarget1.clickCount = 1
      ∧ sampleEnv.now ≠ 7
      ∧ sampleEnv.now + 1 ≠ 7
      ∧ (step (Event.settle 7) sampleEnv
            (step (Event.clickTarget 7 100 sampleEnv) sampleEnv dblState1)).score =
          dblState1.score + 1
      ∧ findTarget 7 initialState.targets = none
      ∧ handleTargetClick 100 sampleEnv 7 initialState = initialState := by
  have hf : findTarget 7 dblState.targets = some dblTarget := rfl
  have hdc : dblTarget.requiresDoubleClick = true := rfl
  have hcc : dblTarget.clickCount = 0 := rfl
  have hf1 : findTarget 7 dblState1.targets = some dblTarget1 := rfl
  have hcc1 : dblTarget1.clickCount = 1 := rfl
  have hfr0 : sampleEnv.now ≠ 7 := by norm_num [sampleEnv]
  have hfr1 : sampleEnv.now + 1 ≠ 7 := by norm_num [sampleEnv]
  have hnone : findTarget 7 initialState.targets = none := rfl
  exact ⟨hf, hdc, hcc,
    (C4_double_click_protocol.1 100 sampleEnv sampleEnv 7 dblState dblTarget hf hdc hcc).1,
    hf1, hcc1, hfr0, hfr1,
    (C4_double_click_protocol.2.1 100 sampleEnv sampleEnv sampleEnv 7 dblState1 dblTarget1
      hf1 rfl hcc1 hfr0 hfr1).1,
    hnone, C4_double_click_protocol.2.2.1 100 sampleEnv 7 initialState hnone⟩

theorem handleMouseMove_drag_incomplete
    {cx cy d : ℚ} {env : GenEnv} {s : GameState} {dt target : Target}
    {pts : List PathPoint}
    (hstart : s.isGameStarted = true)
    (hdt : s.dragTarget = some dt)
    (hpath : dt.isPathTarget = true)
    (hf : findTarget dt.id s.targets = some target)
    (hpts : target.pathPoints = some pts)
    (hdrag : target.isDragging = true)
    (hlt : moveProgress cx s.lastMousePos.1 target pts < 1) :
    handleMouseMove cx cy d env s =
      { s with
        gameStats := { s.gameStats with
          totalDistance := s.gameStats.totalDistance + d }
        targets := s.targets.map fun u =>
          if u.id = target.id then
            { u with
              progress := moveProgress cx s.lastMousePos.1 target pts
              x := (pathPointAt (moveProgress cx s.lastMousePos.1 target pts) pts).x
              y := (pathPointAt (moveProgress cx s.lastMousePos.1 target pts) pts).y }
          else u
        lastMousePos := (cx, cy) } := by
  simp only [handleMouseMove, hstart, hdt, hpath, hf, hpts, hdrag,
    Bool.true_eq_false, if_false, not_le.mpr hlt, if_true]

theorem handleMouseMove_drag_complete
    {cx cy d : ℚ} {env : GenEnv} {s : GameState} {dt target : Target}
    {pts : List PathPoint}
    (hstart : s.isGameStarted = true)
    (hdt : s.dragTarget = some dt)
    (hpath : dt.isPathTarget = true)
    (hf : findTarget dt.id s.targets = some target)
    (hpts : target.pathPoints = some pts)
    (hdrag : target.isDragging = true)
    (hge : 1 ≤ moveProgress cx s.lastMousePos.1 target pts) :
    handleMouseMove cx cy d env s =
      generateTarget env
        { s with
          gameStats := { s.gameStats with
            totalDistance := s.gameStats.totalDistance + d }
          targets := s.targets.filter fun t => decide (t.id ≠ target.id)
          score := s.score + 1
          dragTarget := none
          lastMousePos := (cx, cy) } := by
  simp only [handleMouseMove, hstart, hdt, hpath, hf, hpts, hdrag,
    Bool.true_eq_false, if_false, hge, if_true]

theorem generateTarget_dragTarget (env : GenEnv) (s : GameState) :
    (generateTarget env s).dragTarget = s.dragTarget := by
  unfold generateTarget; split <;> rfl

theorem intenseEffect_dragTarget (s : GameState) :
    (intenseEffect s).dragTarget = s.dragTarget := by
  unfold intenseEffect; split <;> rfl

theorem refillEffect_dragTarget (env : GenEnv) (s : GameState) :
    (refillEffect env s).dragTarget = s.dragTarget := by
  unfold refillEffect
  split
  · exact generateTarget_dragTarget env s
  · rfl

theorem step_dragTarget (e : Event) (renv : GenEnv) (s : GameState) :
    (step e renv s).dragTarget = (handleEvent e s).dragTarget := by
  unfold step
  rw [refillEffect_dragTarget, intenseEffect_dragTarget]

/-- C8. Path-target dragging: every move clamps the cumulative progress
into [0,1]; a move whose clamped progress stays below 1 leaves the target
live at exactly that progress with no score change; a move reaching
progress 1 removes the target, increments the score and clears the drag
(with fresh generation ids); releasing the drag changes no progress and no
score; and in every reachable state all stored progress values lie in
[0,1]. -/
theorem C8_path_drag_progress :
    (∀ (cx cy d : ℚ) (env renv : GenEnv) (s : GameState) (dt target : Target)
        (pts : List PathPoint),
        s.isGameStarted = true → s.dragTarget = some dt →
        dt.isPathTarget = true → findTarget dt.id s.targets = some target →
        target.pathPoints = some pts → target.isDragging = true →
        moveProgress cx s.lastMousePos.1 target pts < 1 →
        0 ≤ moveProgress cx s.lastMousePos.1 target pts
          ∧ moveProgress cx s.lastMousePos.1 target pts ≤ 1
          ∧ findTarget dt.id (step (Event.mouseMove cx cy d env) renv s).targets =
              some { target with
                progress := moveProgress cx s.lastMousePos.1 target pts
                x := (pathPointAt (moveProgress cx s.lastMousePos.1 target pts) pts).x
                y := (pathPointAt (moveProgress cx s.lastMousePos.1 target pts) pts).y }
          ∧ (step (Event.mouseMove cx cy d env) renv s).score = s.score)
      ∧ (∀ (cx cy d : ℚ) (env renv : GenEnv) (s : GameState) (dt target : Target)
          (pts : List PathPoint),
          s.isGameStarted = true → s.dragTarget = some dt →
          dt.isPathTarget = true → findTarget dt.id s.targets = some target →
          target.pathPoints = some pts → target.isDragging = true →
          1 ≤ moveProgress cx s.lastMousePos.1 target pts →
          env.now ≠ dt.id → env.now + 1 ≠ dt.id →
          renv.now ≠ dt.id → renv.now + 1 ≠ dt.id →
          (step (Event.mouseMove cx cy d env) renv s).score = s.score + 1
            ∧ findTarget dt.id (step (Event.mouseMove cx cy d env) renv s).targets = none
            ∧ (step (Event.mouseMove cx cy d env) renv s).dragTarget = none)
      ∧ (∀ s : GameState,
          (handleMouseUp s).score = s.score
            ∧ (handleMouseUp s).targets.map (fun t => (t.id, t.progress)) =
              s.targets.map fun t => (t.id, t.progress))
      ∧ (∀ s : GameState, Reachable s → ∀ t ∈ s.targets,
          0 ≤ t.progress ∧ t.progress ≤ 1) := by
  refine ⟨?_, ?_, ?_, ?_⟩
  · intro cx cy d env renv s dt target pts hstart hdt hpath hf hpts hdrag hlt
    have hchar := @handleMouseMove_drag_incomplete cx cy d env s dt target pts
        hstart hdt hpath hf hpts hdrag hlt
    have hid : target.id = dt.id := findTarget_id hf
    have htg : (handleEvent (Event.mouseMove cx cy d env) s).targets =
        s.targets.map fun u =>
          if u.id = dt.id then
            { u with
              progress := moveProgress cx s.lastMousePos.1 target pts
              x := (pathPointAt (moveProgress cx s.lastMousePos.1 target pts) pts).x
              y := (pathPointAt (moveProgress cx s.lastMousePos.1 target pts) pts).y }
          else u := by
      show (handleMouseMove cx cy d env s).targets = _
      rw [hchar]
      simp only [hid]
    have hne : (handleEvent (Event.mouseMove cx cy d env) s).targets ≠ [] := by
      rw [htg]
      simpa [List.map_eq_nil_iff] using findTarget_ne_nil hf
    refine ⟨clampProgress_nonneg _, clampProgress_le_one _, ?_, ?_⟩
    · rw [step_targets_of_ne_nil _ renv hne, htg,
        findTarget_map_update dt.id
          (fun u => { u with
            progress := moveProgress cx s.lastMousePos.1 target pts
            x := (pathPointAt (moveProgress cx s.lastMousePos.1 target pts) pts).x
            y := (pathPointAt (moveProgress cx s.lastMousePos.1 target pts) pts).y })
          (fun _ => rfl) s.targets, hf]
      simp [hid]
    · rw [step_score]
      show (handleMouseMove cx cy d env s).score = s.score
      rw [hchar]
  · intro cx cy d env renv s dt target pts hstart hdt hpath hf hpts hdrag hge
      hfe0 hfe1 hfr0 hfr1
    have hchar := @handleMouseMove_drag_complete cx cy d env s dt target pts
        hstart hdt hpath hf hpts hdrag hge
    have hid : target.id = dt.id := findTarget_id hf
    refine ⟨?_, ?_, ?_⟩
    · rw [step_score]
      show (handleMouseMove cx cy d env s).score = s.score + 1
      rw [hchar, generateTarget_score]
    · apply findTarget_eq_none_of
      intro u hu
      rcases mem_step_targets hu with h | h
      · have hm : u ∈ (handleMouseMove cx cy d env s).targets := h
        rw [hchar] at hm
        rcases mem_generateTarget hm with h2 | h2
        · simp only [List.mem_filter, decide_eq_true_eq] at h2
          rw [← hid]
          exact h2.2
        · exact genList_id_ne hfe0 hfe1 u h2
      · exact genList_id_ne hfr0 hfr1 u h
    · rw [step_dragTarget]
      show (handleMouseMove cx cy d env s).dragTarget = none
      rw [hchar, generateTarget_dragTarget]
  · intro s
    unfold handleMouseUp
    cases s.dragTarget with
    | none => exact ⟨rfl, rfl⟩
    | some dt =>
      refine ⟨rfl, ?_⟩
      simp only [List.map_map]
      apply List.map_congr_left
      intro u _
      by_cases h : u.id = dt.id
      · simp [Function.comp, h]
      · simp [Function.comp, h]
  · intro s h t ht
    exact (reachable_targetOK h t ht).2

/-- C8 witness: a drag over the concrete two-point path, once with a
partial move (progress 1/2) and once with a completing move, plus the
release and the reachable-progress bound at the started state. -/
theorem C8_path_drag_progress_witness :
    dragState.isGameStarted = true
      ∧ dragState.dragTarget = some pathTarget
      ∧ pathTarget.isPathTarget = true
      ∧ findTarget pathTarget.id dragState.targets = some pathTarget
      ∧ pathTarget.pathPoints = some pathPts
      ∧ pathTarget.isDragging = true
      ∧ moveProgress 5 dragState.lastMousePos.1 pathTarget pathPts < 1
      ∧ (step (Event.mouseMove 5 0 0 sampleEnv) sampleEnv dragState).score = dragState.score
      ∧ 1 ≤ moveProgress 20 dragState.lastMousePos.1 pathTarget pathPts
      ∧ sampleEnv.now ≠ pathTarget.id
      ∧ sampleEnv.now + 1 ≠ pathTarget.id
      ∧ (step (Event.mouseMove 20 0 0 sampleEnv) sampleEnv dragState).score =
          dragState.score + 1
      ∧ (handleMouseUp dragState).score = dragState.score := by
  have h1 : dragState.isGameStarted = true := rfl
  have h2 : dragState.dragTarget = some pathTarget := rfl
  have h3 : pathTarget.isPathTarget = true := rfl
  have h4 : findTarget pathTarget.id dragState.targets = some pathTarget := rfl
  have h5 : pathTarget.pathPoints = some pathPts := rfl
  have h6 : pathTarget.isDragging = true := rfl
  have hlt : moveProgress 5 dragState.lastMousePos.1 pathTarget pathPts < 1 := by
    norm_num [moveProgress, clampProgress, pathExtent, pathPts, pathTarget, dragState,
      initialState, List.getLastD, List.headD]
  have hge : 1 ≤ moveProgress 20 dragState.lastMousePos.1 pathTarget pathPts := by
    norm_num [moveProgress, clampProgress, pathExtent, pathPts, pathTarget, dragState,
      initialState, List.getLastD, List.headD]
  have hfr0 : sampleEnv.now ≠ pathTarget.id := by norm_num [sampleEnv, pathTarget]
  have hfr1 : sampleEnv.now + 1 ≠ pathTarget.id := by norm_num [sampleEnv, pathTarget]
  exact ⟨h1, h2, h3, h4, h5, h6, hlt,
    (C8_path_drag_progress.1 5 0 0 sampleEnv sampleEnv dragState pathTarget pathTarget
      pathPts h1 h2 h3 h4 h5 h6 hlt).2.2.2,
    hge, hfr0, hfr1,
    (C8_path_drag_progress.2.1 20 0 0 sampleEnv sampleEnv dragState pathTarget pathTarget
      pathPts h1 h2 h3 h4 h5 h6 hge hfr0 hfr1 hfr0 hfr1).1,
    (C8_path_drag_progress.2.2.1 dragState).1⟩

theorem filter_ne_length_of_nodup :
    ∀ (l : List Target) (t : Target), (l.map Target.id).Nodup → t ∈ l →
      (l.filter fun u => decide (u.id ≠ t.id)).length = l.length - 1 := by
  intro l
  induction l with
  | nil => intro t _ ht; cases ht
  | cons u l ih =>
    intro t hnd ht
    rw [List.map_cons, List.nodup_cons] at hnd
    rcases List.mem_cons.mp ht with rfl | hmem
    · rw [List.filter_cons, if_neg (by simp)]
      have hall : ∀ x ∈ l, decide (x.id ≠ t.id) = true := by
        intro x hx
        simp only [decide_eq_true_eq]
        intro hcontra
        exact hnd.1 (by rw [← hcontra]; exact List.mem_map_of_mem Target.id hx)
      rw [List.filter_eq_self.mpr hall]
      simp
    · have hne : u.id ≠ t.id := by
        intro h
        exact hnd.1 (h ▸ List.mem_map_of_mem Target.id hmem)
      rw [List.filter_cons, if_pos (by simpa using hne), List.length_cons,
        ih t hnd.2 hmem]
      have hl : 1 ≤ l.length := List.length_pos.mpr (List.ne_nil_of_mem hmem)
      simp only [List.length_cons]
      omega

/-- C9 counterexample: two generation calls inside the same millisecond
(both observing `Date.now() = 0`) produce two live targets with the same
id — target ids are not unique across generation calls of a session. -/
theorem C9_counterexample_id_collision :
    ¬ ((generateTarget collideEnv (generateTarget collideEnv startedEmpty)).targets.map
        Target.id).Nodup := by
  have h01 : List.range 1 = [0] := by decide
  simp [generateTarget, genList, genCount, mkTarget, startedEmpty, initialState,
    collideEnv, h01, List.take_succ_cons, List.take_nil, Function.comp]

/-- C9 amended: ids produced by a single generation call are distinct
(`Date.now() + i`); targets from two calls are distinct provided the later
call's timestamp exceeds the earlier one's by at least 2 (the maximum
fan-out), while calls in the same millisecond may collide; under distinct
live ids a resolving removal removes exactly the resolved target (the
filter drops one element and the target itself is gone); and session
termination clears the whole live set at once. -/
theorem C9_id_uniqueness_amended :
    (∀ (env : GenEnv) (s : GameState), ((genList env s).map Target.id).Nodup)
      ∧ (∀ (env1 env2 : GenEnv) (s1 s2 : GameState), env1.now + 2 ≤ env2.now →
          ∀ t1 ∈ genList env1 s1, ∀ t2 ∈ genList env2 s2, t1.id ≠ t2.id)
      ∧ (∀ (s : GameState) (t : Target), (s.targets.map Target.id).Nodup →
          t ∈ s.targets →
          (s.targets.filter fun u => decide (u.id ≠ t.id)).length =
              s.targets.length - 1
            ∧ t ∉ s.targets.filter fun u => decide (u.id ≠ t.id))
      ∧ (∀ (now : ℚ) (s : GameState), (endGame now s).targets = []) := by
  refine ⟨?_, ?_, ?_, fun now s => endGame_targets now s⟩
  · intro env s
    have hc : genCount env s = 1 ∨ genCount env s = 2 := by
      unfold genCount
      split
      · exact Or.inr rfl
      · exact Or.inl rfl
    unfold genList
    have h01 : List.range 1 = [0] := by decide
    rcases hc with hc | hc <;> rw [hc]
    · simp [h01]
    · show ((List.map (mkTarget env) [0, 1]).map Target.id).Nodup
      simp only [List.map_cons, List.map_nil, mkTarget]
      simp only [List.nodup_cons, List.mem_singleton, List.not_mem_nil,
        not_false_iff, List.nodup_nil, and_true]
      push_cast
      intro h
      have : (0 : ℚ) = 1 := by linarith
      norm_num at this
  · intro env1 env2 s1 s2 hlt t1 h1 t2 h2
    simp only [genList, List.mem_map, List.mem_range] at h1 h2
    obtain ⟨i, hi, rfl⟩ := h1
    obtain ⟨j, hj, rfl⟩ := h2
    have hi2 : i < 2 := lt_of_lt_of_le hi (genCount_le_two env1 s1)
    have hic : (i : ℚ) ≤ 1 := by
      have : i ≤ 1 := by omega
      exact_mod_cast this
    have hjc : (0 : ℚ) ≤ (j : ℚ) := by positivity
    show env1.now + (i : ℚ) ≠ env2.now + (j : ℚ)
    intro h
    linarith
  · intro s t hnd hmem
    refine ⟨filter_ne_length_of_nodup s.targets t hnd hmem, ?_⟩
    simp [List.mem_filter]

/-- C9 witness: per-call uniqueness at a concrete oracle, cross-call
uniqueness of the colliding-clock call versus a call 1000ms later, and the
exactly-once removal on the concrete three-target board. -/
theorem C9_id_uniqueness_amended_witness :
    ((genList sampleEnv initialState).map Target.id).Nodup
      ∧ collideEnv.now + 2 ≤ sampleEnv.now
      ∧ mkTarget collideEnv 0 ∈ genList collideEnv startedEmpty
      ∧ mkTarget sampleEnv 0 ∈ genList sampleEnv initialState
      ∧ (mkTarget collideEnv 0).id ≠ (mkTarget sampleEnv 0).id
      ∧ (threeTargets.targets.map Target.id).Nodup
      ∧ tinyTarget 1 ∈ threeTargets.targets
      ∧ (threeTargets.targets.filter fun u => decide (u.id ≠ (tinyTarget 1).id)).length =
          threeTargets.targets.length - 1 := by
  have hts : collideEnv.now + 2 ≤ sampleEnv.now := by norm_num [collideEnv, sampleEnv]
  have hm1 : mkTarget collideEnv 0 ∈ genList collideEnv startedEmpty := by
    simp [genList, genCount, startedEmpty, initialState]
  have hm2 : mkTarget sampleEnv 0 ∈ genList sampleEnv initialState := by
    simp [genList, genCount, initialState]
  have hnd : (threeTargets.targets.map Target.id).Nodup := by
    simp [threeTargets, initialState, tinyTarget]
  have hmem : tinyTarget 1 ∈ threeTargets.targets := by
    simp [threeTargets, initialState]
  exact ⟨C9_id_uniqueness_amended.1 sampleEnv initialState, hts, hm1, hm2,
    C9_id_uniqueness_amended.2.1 collideEnv sampleEnv startedEmpty initialState hts
      (mkTarget collideEnv 0) hm1 (mkTarget sampleEnv 0) hm2,
    hnd, hmem,
    (C9_id_uniqueness_amended.2.2.1 threeTargets (tinyTarget 1) hnd hmem).1⟩

end ClickDance
